import Mathlib

/-!
Shallow embedding of the federated-learning aggregation strategy
(file src/strategy.py, class FedCustom) for verification of the
natural-language specification.

Conventions:
* numeric tensors are `List ℚ` (float arithmetic is modelled as exact
  rational/real arithmetic); a parameter set is a `List` of tensors;
* Python exceptions are modelled with `Except Unit`;
* the external k-means routine (sklearn.cluster.KMeans) is an external
  collaborator: it is a parameter `kf` of the definitions, wrapped in
  `kmeansCall`, which reproduces sklearn input validation (it raises
  when `n_clusters < 1` or `n_samples < n_clusters`);
* Python dict keys of the client-cluster mapping may be Python ints or
  Python strings, which are distinct dictionary keys; the type `PKey`
  mirrors that.
-/

set_option synthInstance.maxSize 512

namespace FML

abbrev Tensor := List ℚ

abbrev Params := List Tensor

/-- A Python dict key: an int or a str (never equal across kinds). -/
inductive PKey where
  | kint : ℤ → PKey
  | kstr : String → PKey
deriving DecidableEq, Repr

instance {ε α : Type} [DecidableEq ε] [DecidableEq α] : DecidableEq (Except ε α) :=
  fun a b =>
  match a, b with
  | .ok x, .ok y =>
    if h : x = y then .isTrue (by rw [h]) else .isFalse (by intro hc; cases hc; exact h rfl)
  | .error x, .error y =>
    if h : x = y then .isTrue (by rw [h]) else .isFalse (by intro hc; cases hc; exact h rfl)
  | .ok _, .error _ => .isFalse (by intro hc; cases hc)
  | .error _, .ok _ => .isFalse (by intro hc; cases hc)

/-- A Python `for` loop collecting `f x` and dying at the first exception. -/
def mapE {α β : Type} (f : α → Except Unit β) : List α → Except Unit (List β)
  | [] => .ok []
  | x :: xs =>
    match f x, mapE f xs with
    | .ok y, .ok ys => .ok (y :: ys)
    | .error e, _ => .error e
    | .ok _, .error e => .error e

/-- A Python `for` loop threading a state and dying at the first exception. -/
def foldE {σ α : Type} (f : σ → α → Except Unit σ) : σ → List α → Except Unit σ
  | s, [] => .ok s
  | s, x :: xs =>
    match f s x with
    | .error e => .error e
    | .ok s2 => foldE f s2 xs

/-- A Python comprehension of `f x` dying at the first failed lookup. -/
def mapO {α β : Type} (f : α → Option β) : List α → Option (List β)
  | [] => some []
  | x :: xs =>
    match f x, mapO f xs with
    | some y, some ys => some (y :: ys)
    | _, _ => none

/-- Association-list lookup (Python dict lookup; keys in our flows are unique). -/
def alookup {κ β : Type} [DecidableEq κ] (m : List (κ × β)) (k : κ) : Option β :=
  match m with
  | [] => none
  | p :: rest => if p.1 = k then some p.2 else alookup rest k

/-- Python membership test `k in d`. -/
def hasKey {κ β : Type} [DecidableEq κ] (m : List (κ × β)) (k : κ) : Bool :=
  (alookup m k).isSome

/-- Heads and tails of a list of lists; `none` if any list is empty. -/
def headsTails {α : Type} : List (List α) → Option (List α × List (List α))
  | [] => some ([], [])
  | [] :: _ => none
  | (h :: t) :: rest =>
    match headsTails rest with
    | some (hs, ts) => some (h :: hs, t :: ts)
    | none => none

def pyZipGo {α : Type} : List α → List (List α) → List (List α)
  | [], _ => []
  | h :: t, rest =>
    match headsTails rest with
    | none => []
    | some (hs, ts) => (h :: hs) :: pyZipGo t ts

/-- Python `zip(*ls)`: truncates to the shortest list; `zip()` of nothing is empty. -/
def pyZip {α : Type} : List (List α) → List (List α)
  | [] => []
  | l :: rest => pyZipGo l rest

/-- Insert into a sorted list (ascending, stable). -/
def insertQ (x : ℚ) : List ℚ → List ℚ
  | [] => [x]
  | y :: ys => if x ≤ y then x :: y :: ys else y :: insertQ x ys

/-- Ascending sort of rationals (`np.sort`); insertion sort, which agrees
with any correct sort on a total order. -/
def sortQ : List ℚ → List ℚ
  | [] => []
  | x :: xs => insertQ x (sortQ xs)

/-- Arithmetic mean of a list of rationals (`np.mean`). -/
def listMean (l : List ℚ) : ℚ := l.sum / (l.length : ℚ)

/-- `np.mean(np.array(ts), axis=0)`: element-wise mean of equally-shaped
tensors; numpy raises on ragged input. -/
def meanTensors (ts : List Tensor) : Except Unit Tensor :=
  if ts.all (fun t => t.length = (ts.headD []).length) then
    .ok ((pyZip ts).map listMean)
  else
    .error ()

/-- `[np.mean(param_tuple, axis=0) for param_tuple in zip(*lists)]`:
the element-wise unweighted mean of a list of parameter sets. -/
def meanParamsList (lists : List Params) : Except Unit Params :=
  mapE meanTensors (pyZip lists)

/-- `np.percentile(xs, 25)` with the default linear interpolation:
sort ascending, index `h = (n-1)/4`, interpolate between the
neighbouring order statistics. -/
def percentile25 (xs : List ℚ) : ℚ :=
  let s := sortQ xs
  let n := xs.length
  let h : ℚ := ((n : ℚ) - 1) / 4
  let i := (⌊h⌋).toNat
  let lo := s.getD i 0
  let hi := s.getD (i + 1) lo
  lo + (h - (⌊h⌋ : ℚ)) * (hi - lo)

/-- Row mean: `np.mean(similarity_matrix, axis=1)` applied to one row. -/
def rowMean (row : List ℚ) : ℚ := listMean row

/-- sklearn `KMeans(n_clusters=k).fit_predict(data)` as an external
collaborator `kf`, with sklearn input validation: raises unless
`1 ≤ k ≤ n_samples`. -/
def kmeansCall (kf : ℕ → List (List ℚ) → List ℕ) (k : ℕ) (data : List (List ℚ)) :
    Except Unit (List ℕ) :=
  if 1 ≤ k ∧ k ≤ data.length then .ok (kf k data) else .error ()

/-- Contract of sklearn k-means on valid input: one label per sample,
labels in `[0, k)`. -/
def KContract (kf : ℕ → List (List ℚ) → List ℕ) : Prop :=
  ∀ k data, 1 ≤ k → k ≤ data.length →
    (kf k data).length = data.length ∧ ∀ l ∈ kf k data, l < k

/-- `assign_clusters_with_dynamic_threshold` (src/strategy.py lines 185-230),
parametrised by the external k-means `kf`. -/
def assign_clusters_with_dynamic_threshold
    (kf : ℕ → List (List ℚ) → List ℕ)
    (similarity_matrix : List (List ℚ)) (num_clusters : ℕ) :
    Except Unit (List ℤ) :=
  let num_clients := similarity_matrix.length
  let avg_similarities := similarity_matrix.map rowMean
  let min_similarity_threshold := percentile25 avg_similarities
  let outlier_indices :=
    (List.range num_clients).filter
      (fun i => avg_similarities.getD i 0 < min_similarity_threshold)
  let normal_indices :=
    (List.range num_clients).filter
      (fun i => min_similarity_threshold ≤ avg_similarities.getD i 0)
  if outlier_indices.length = 0 ∨ outlier_indices.length = num_clients then
    match kmeansCall kf num_clusters similarity_matrix with
    | .error e => .error e
    | .ok ls => .ok (ls.map (fun (l : ℕ) => (l : ℤ)))
  else
    -- cluster_labels = np.zeros(num_clients); outliers stay 0
    let base : List ℤ := List.replicate num_clients 0
    if normal_indices.length > 0 then
      let normal_client_similarities :=
        normal_indices.map (fun i =>
          normal_indices.map (fun j => (similarity_matrix.getD i []).getD j 0))
      match kmeansCall kf (num_clusters - 1) normal_client_similarities with
      | .error e => .error e
      | .ok normal_clusters =>
        .ok ((normal_indices.zip normal_clusters).foldl
          (fun acc p => acc.set p.1 ((p.2 : ℤ) + 1)) base)
    else
      .ok base

/-- The clusterer as the specification words it (spec section 4.2 / claim C4):
per-index merged labels, outliers keep 0, each normal client i gets the
offset label of its position among the normal clients. -/
def assignClustersSpec
    (kf : ℕ → List (List ℚ) → List ℕ)
    (sim : List (List ℚ)) (numClusters : ℕ) : Except Unit (List ℤ) :=
  let n := sim.length
  let avg := sim.map rowMean
  let thr := percentile25 avg
  let outliers := (List.range n).filter (fun i => avg.getD i 0 < thr)
  let normals := (List.range n).filter (fun i => thr ≤ avg.getD i 0)
  if outliers.length = 0 ∨ outliers.length = n then
    match kmeansCall kf numClusters sim with
    | .error e => .error e
    | .ok ls => .ok (ls.map (fun (l : ℕ) => (l : ℤ)))
  else
    let sub := normals.map (fun i => normals.map (fun j => (sim.getD i []).getD j 0))
    match kmeansCall kf (numClusters - 1) sub with
    | .error e => .error e
    | .ok nl =>
      .ok ((List.range n).map (fun i =>
        if i ∈ outliers then (0 : ℤ)
        else ((nl.getD (normals.indexOf i) 0 : ℤ) + 1)))

/-! ### Python helpers: ints, dicts, list indexing, sorting of client ids -/

/-- Value of a nonempty digit string. -/
def digitsToNat (l : List Char) : ℕ :=
  l.foldl (fun acc c => acc * 10 + (c.toNat - 48)) 0

/-- Python `int(s)` on a string: optional sign then digits; `none` models
the `ValueError` raised otherwise. -/
def pyIntOfString (s : String) : Option ℤ :=
  let core : List Char → Option ℕ := fun l =>
    if l ≠ [] ∧ l.all Char.isDigit then some (digitsToNat l) else none
  match s.toList with
  | '-' :: rest => (core rest).map (fun n => -(n : ℤ))
  | '+' :: rest => (core rest).map (fun n => (n : ℤ))
  | l => (core l).map (fun n => (n : ℤ))

/-- Python dict insertion: overwrite in place, else append (insertion order). -/
def dictInsert {κ β : Type} [DecidableEq κ] (m : List (κ × β)) (k : κ) (v : β) :
    List (κ × β) :=
  if hasKey m k then m.map (fun p => if p.1 = k then (k, v) else p) else m ++ [(k, v)]

/-- Python dict built from a comprehension (later bindings overwrite earlier). -/
def mkDict {κ β : Type} [DecidableEq κ] (l : List (κ × β)) : List (κ × β) :=
  l.foldl (fun m p => dictInsert m p.1 p.2) []

/-- Python list indexing `l[i]` with negative-index wrap-around;
`error` models `IndexError`. -/
def pyListGet {α : Type} (l : List α) (i : ℤ) : Except Unit α :=
  let j : ℤ := if i < 0 then (l.length : ℤ) + i else i
  if 0 ≤ j ∧ j < (l.length : ℤ) then
    match l.get? j.toNat with
    | some x => .ok x
    | none => .error ()
  else .error ()

/-- Stable insertion for a boolean `le`. -/
def insertLe {α : Type} (le : α → α → Bool) (x : α) : List α → List α
  | [] => [x]
  | y :: ys => if le x y then x :: y :: ys else y :: insertLe le x ys

/-- Stable insertion sort for a boolean `le` (Python `sorted` is a stable
sort; for sorting by a key under a total order the result agrees). -/
def isortLe {α : Type} (le : α → α → Bool) : List α → List α
  | [] => []
  | x :: xs => insertLe le x (isortLe le xs)

/-- `sorted(client_ids, key=int)` with fallback to plain lexicographic
`sorted(client_ids)` when some id does not parse as an int
(src/strategy.py lines 244-247). -/
def sortIds (ids : List String) : List String :=
  if ids.all (fun s => (pyIntOfString s).isSome) then
    isortLe (fun a b => decide (((pyIntOfString a).getD 0) ≤ ((pyIntOfString b).getD 0))) ids
  else
    isortLe (fun a b => decide (a ≤ b)) ids

/-! ### Coordinator state (the FedCustom object fields the core claims use) -/

/-- The cross-round mutable state of `FedCustom`.  `dynamic_grouping`
holds the truth of the Python comparison `self.dynamic_grouping == 1`;
`client_cluster_mapping = none` models the attribute not existing yet
(`hasattr` is false); `cluster_models` is the dict from cluster label to
parameters, whose values may be Python `None` (`Option Params`). -/
structure StratState where
  dynamic_grouping : Bool
  clustering_frequency : ℕ
  num_clusters : ℕ
  model_type : String
  cluster_labels : Option (List ℤ)
  client_cluster_mapping : Option (List (PKey × ℤ))
  cluster_models : List (ℤ × Option Params)
deriving DecidableEq, Repr

/-- `server_round == 1 or server_round % self.clustering_frequency == 0`
(src/strategy.py line 137 and line 250).  The config contract gives
`clustering_frequency ≥ 1`; Python raises ZeroDivisionError on 0, which
is not modelled (theorems assume `1 ≤ clustering_frequency` when the
frequency matters). -/
def is_clustering_round (server_round clustering_frequency : ℕ) : Bool :=
  server_round == 1 || server_round % clustering_frequency == 0

/-! ### configure_fit / configure_evaluate (per sampled client) -/

/-- Parameters handed to one sampled client by `configure_fit`
(src/strategy.py lines 111-126).  The result is the `FitIns` parameters
field: `some p` for an actual parameter set, `none` when the Python code
puts `None` into `FitIns` (a `cluster_models` value that is `None`);
`error` models `int(client.cid)` failing or a `KeyError` on
`self.cluster_models[cluster]`. -/
def configure_fit_params (st : StratState) (server_round : ℕ)
    (parameters : Params) (cid : String) : Except Unit (Option Params) :=
  match pyIntOfString cid with
  | none => .error ()
  | some client_id =>
    if st.dynamic_grouping ∧ server_round > 1 then
      match st.client_cluster_mapping with
      | some m =>
        match alookup m (PKey.kint client_id) with
        | some cluster =>
          match alookup st.cluster_models cluster with
          | some mp => .ok mp
          | none => .error ()
        | none => .ok (some parameters)
      | none => .ok (some parameters)
    else .ok (some parameters)

/-- Parameters handed to one sampled client by `configure_evaluate`
(src/strategy.py lines 314-333): unlike `configure_fit` it checks
`cluster in self.cluster_models and self.cluster_models[cluster] is not
None` and falls back to the global parameters. -/
def configure_evaluate_params (st : StratState) (server_round : ℕ)
    (parameters : Params) (cid : String) : Except Unit Params :=
  match pyIntOfString cid with
  | none => .error ()
  | some client_id =>
    if st.dynamic_grouping ∧ server_round > 1 then
      match st.client_cluster_mapping with
      | some m =>
        match alookup m (PKey.kint client_id) with
        | some cluster =>
          match alookup st.cluster_models cluster with
          | some (some p) => .ok p
          | _ => .ok parameters
        | none => .ok parameters
      | none => .ok parameters
    else .ok parameters

/-! ### aggregate_parameters -/

/-- `np.zeros_like` of a parameter set. -/
def zerosLike (ps : Params) : Params := ps.map (fun t => t.map (fun _ => (0 : ℚ)))

/-- `[parameters_list[i] for i in range(num_models) if cluster_labels[i] == cluster]`
(src/strategy.py line 166): the parameter sets of one cluster's members. -/
def cluster_member_params (parameters_list : List Params) (cluster_labels : List ℤ)
    (cluster : ℤ) : List Params :=
  (List.range parameters_list.length).filterMap (fun i =>
    if cluster_labels.getD i 0 = cluster then some (parameters_list.getD i [])
    else none)

/-- The label-resolution half of `aggregate_parameters`
(src/strategy.py lines 135-161): fresh clustering on clustering rounds,
reuse of the stored labels plus the mapping otherwise.  Eager list
indexing that can raise `IndexError` is guarded with explicit length
checks that produce `error`. -/
def ap_labels (simFn : List Tensor → List (List ℚ))
    (kf : ℕ → List (List ℚ) → List ℕ)
    (st : StratState) (parameters_list : List Params) (server_round : ℕ) :
    Except Unit (List ℤ × StratState) :=
  let num_models := parameters_list.length
  if is_clustering_round server_round st.clustering_frequency then
    let flattened_parameters := parameters_list.map (fun ps => ps.flatten)
    let similarity_matrix := simFn flattened_parameters
    match assign_clusters_with_dynamic_threshold kf similarity_matrix st.num_clusters with
    | .error e => .error e
    | .ok cluster_labels =>
      if num_models ≤ cluster_labels.length then
        let mapping := mkDict ((List.range num_models).map
          (fun i => (PKey.kint (Int.ofNat i), cluster_labels.getD i 0)))
        .ok (cluster_labels,
          { st with cluster_labels := some cluster_labels,
                    client_cluster_mapping := some mapping })
      else .error ()
  else
    match st.cluster_labels with
    | none => .error ()
    | some cl =>
      if num_models ≤ cl.length then
        let rebuild :=
          match st.client_cluster_mapping with
          | none => true
          | some m => m.length < num_models
        let mapping :=
          if rebuild then
            mkDict ((List.range num_models).map
              (fun i => (PKey.kint (Int.ofNat i), cl.getD i 0)))
          else (st.client_cluster_mapping).getD []
        let resolved := (List.range num_models).map
          (fun i => (alookup mapping (PKey.kint (Int.ofNat i))).getD (cl.getD i 0))
        .ok (resolved, { st with client_cluster_mapping := some mapping })
      else .error ()

/-- The per-cluster aggregation half of `aggregate_parameters`
(src/strategy.py lines 163-183). -/
def ap_aggregate (st1 : StratState) (parameters_list : List Params)
    (cluster_labels : List ℤ) :
    Except Unit (StratState × Params × Option (List ℤ)) :=
  let memberSets := (List.range st1.num_clusters).filterMap (fun c =>
    let mem := cluster_member_params parameters_list cluster_labels (c : ℤ)
    if mem = [] then none else some mem)
  match mapE meanParamsList memberSets with
  | .error e => .error e
  | .ok aggregated_parameters =>
    let finalE : Except Unit Params :=
      if aggregated_parameters ≠ [] then meanParamsList aggregated_parameters
      else .ok (zerosLike (parameters_list.headD []))
    match finalE with
    | .error e => .error e
    | .ok final_aggregated_parameters =>
      let cluster_models := ((List.range aggregated_parameters.length).zip
        aggregated_parameters).map (fun p => ((p.1 : ℤ), some p.2))
      .ok ({ st1 with cluster_models := cluster_models },
           final_aggregated_parameters, some cluster_labels)

/-- `aggregate_parameters` (src/strategy.py lines 130-183), parametrised
by the external `cosine_similarity` (`simFn`, from sklearn) and k-means
(`kf`).  Returns the updated object state, the final aggregated
parameters and the returned `cluster_labels` value. -/
def aggregate_parameters (simFn : List Tensor → List (List ℚ))
    (kf : ℕ → List (List ℚ) → List ℕ)
    (st : StratState) (parameters_list : List Params) (server_round : ℕ) :
    Except Unit (StratState × Params × Option (List ℤ)) :=
  if st.dynamic_grouping then
    match ap_labels simFn kf st parameters_list server_round with
    | .error e => .error e
    | .ok (cluster_labels, st1) => ap_aggregate st1 parameters_list cluster_labels
  else
    match meanParamsList parameters_list with
    | .error e => .error e
    | .ok final => .ok (st, final, none)

/-! ### The two persisted cluster-assignment stores and _save_cluster_assignments -/

/-- The structured keyed-by-round store (`cluster_assignments.h5`):
round group with the `client_ids` and `cluster_labels` datasets. -/
abbrev H5Store := List (ℕ × (List String × List ℤ))

/-- In-place h5py dataset overwrite `ds[:] = arr`: same length replaces,
a length-1 input broadcasts, anything else raises. -/
def h5Overwrite {α : Type} [Inhabited α] (old new : List α) : Except Unit (List α) :=
  if new.length = old.length then .ok new
  else if new.length = 1 then .ok (List.replicate old.length (new.headD default))
  else .error ()

/-- `_save_cluster_assignments` (src/strategy.py lines 233-269).
`result_cids` are the `client.cid` strings of the round's results in
arrival order; `txt` is the flat text log (`cluster_assignments.txt`)
as a list of lines. -/
def save_cluster_assignments (st : StratState) (result_cids : List String)
    (cluster_labels : Option (List ℤ)) (server_round : ℕ)
    (h5 : H5Store) (txt : List String) :
    Except Unit (StratState × H5Store × List String) :=
  if ¬st.dynamic_grouping ∨ cluster_labels = none then .ok (st, h5, txt)
  else
    let labels := cluster_labels.getD []
    let client_ids := sortIds result_cids
    let st1E : Except Unit StratState :=
      if is_clustering_round server_round st.clustering_frequency then
        if client_ids.length ≤ labels.length then
          .ok { st with client_cluster_mapping := some (mkDict
            (((List.range client_ids.length).zip client_ids).map
              (fun p => (PKey.kstr p.2, labels.getD p.1 0)))) }
        else .error ()
      else .ok st
    match st1E with
    | .error e => .error e
    | .ok st1 =>
      match st1.client_cluster_mapping with
      | none => .error ()
      | some m =>
        match mapO (fun cid => alookup m (PKey.kstr cid)) client_ids with
        | none => .error ()
        | some labsOut =>
          let h5E : Except Unit H5Store :=
            match alookup h5 server_round with
            | none => .ok (h5 ++ [(server_round, (client_ids, labsOut))])
            | some old =>
              match h5Overwrite old.1 client_ids, h5Overwrite old.2 labsOut with
              | .ok c2, .ok l2 =>
                .ok (h5.map (fun e => if e.1 = server_round then (server_round, (c2, l2)) else e))
              | _, _ => .error ()
          match h5E with
          | .error e => .error e
          | .ok h5a =>
            let txta := txt
              ++ [("Server Round " ++ toString server_round ++ ":")]
              ++ (client_ids.zip labsOut).map
                   (fun p => "Client ID: " ++ p.1 ++ ", Cluster: " ++ toString p.2)
              ++ [""]
            .ok (st1, h5a, txta)

/-! ### aggregate_fit -/

/-- One fit result: the client id string, the trained parameters and
`num_examples` (carried only to show aggregation ignores it). -/
structure FitResult where
  cid : String
  parameters : Params
  num_examples : ℕ
deriving DecidableEq, Repr

/-- `aggregate_fit` (src/strategy.py lines 274-299).  Returns the new
state, the two persisted stores and the aggregated parameters
(`none` models the `(None, empty metrics)` early return on empty
results). -/
def aggregate_fit (simFn : List Tensor → List (List ℚ))
    (kf : ℕ → List (List ℚ) → List ℕ)
    (st : StratState) (server_round : ℕ) (results : List FitResult)
    (h5 : H5Store) (txt : List String) :
    Except Unit (StratState × H5Store × List String × Option Params) :=
  if results = [] then .ok (st, h5, txt, none)
  else
    let parameters_list := results.map (fun r => r.parameters)
    if st.dynamic_grouping then
      match aggregate_parameters simFn kf st parameters_list server_round with
      | .error e => .error e
      | .ok (st1, aggregated, cluster_labels) =>
        let st2 := { st1 with cluster_labels := cluster_labels }
        match save_cluster_assignments st2 (results.map (fun r => r.cid))
            cluster_labels server_round h5 txt with
        | .error e => .error e
        | .ok (st3, h5a, txta) => .ok (st3, h5a, txta, some aggregated)
    else
      match meanParamsList parameters_list with
      | .error e => .error e
      | .ok aggregated => .ok (st, h5, txt, some aggregated)

/-! ### _select_best_model: re-parsing the persisted evaluation log -/

/-- Python whitespace for `str.strip` and the regex class `\s`. -/
def isPySpace (c : Char) : Bool :=
  c = ' ' || c = '\t' || c = '\n' || c = '\r' || c = Char.ofNat 11 || c = Char.ofNat 12

/-- Drop `pat` from the front of `l`; `none` if `l` does not start with it. -/
def dropPre : List Char → List Char → Option (List Char)
  | [], rest => some rest
  | _ :: _, [] => none
  | p :: ps, c :: cs => if p = c then dropPre ps cs else none

/-- Python substring test `pat in l`. -/
def containsSub (pat : List Char) : List Char → Bool
  | [] => (dropPre pat []).isSome
  | c :: t => (dropPre pat (c :: t)).isSome || containsSub pat t

/-- Python `str.strip()`. -/
def pyStrip (l : List Char) : List Char :=
  ((l.dropWhile isPySpace).reverse.dropWhile isPySpace).reverse

/-- `re.match(r'Group-(\d+):', line)`: anchored at the line start, greedy
digit run, then a colon; yields the group number. -/
def matchGroup (l : List Char) : Option ℕ :=
  match dropPre ("Group-".toList) l with
  | none => none
  | some rest =>
    let ds := rest.takeWhile Char.isDigit
    match ds, rest.dropWhile Char.isDigit with
    | _ :: _, ':' :: _ => some (digitsToNat ds)
    | _, _ => none

/-- The captured text of `re.search(r'Accuracy:\s*([\d\.]+)', line)`:
the leftmost position where `Accuracy:` is followed (after optional
whitespace) by a nonempty run of digits and dots. -/
def searchMetricNum : List Char → Option (List Char)
  | [] => none
  | c :: t =>
    match dropPre ("Accuracy:".toList) (c :: t) with
    | some rest =>
      let ds := (rest.dropWhile isPySpace).takeWhile (fun ch => ch.isDigit || ch = '.')
      if ds ≠ [] then some ds else searchMetricNum t
    | none => searchMetricNum t

/-- Python `float` on a nonempty string of digits and dots: at most one
dot and at least one digit; `none` models the `ValueError`. -/
def pyFloatOfDigits (ds : List Char) : Option ℚ :=
  let ip := ds.takeWhile Char.isDigit
  match ds.dropWhile Char.isDigit with
  | [] => if ds = [] then none else some ((digitsToNat ip : ℚ))
  | '.' :: fp =>
    if fp.all Char.isDigit ∧ (ip ≠ [] ∨ fp ≠ []) then
      some ((digitsToNat ip : ℚ) + (digitsToNat fp : ℚ) / 10 ^ fp.length)
    else none
  | _ => none

/-- The line scan of `_select_best_model` (src/strategy.py lines 406-434):
`found` is `round_found`, `best` is the pair
`(best_cluster, best_performance)` (initially `None` / `-inf`). -/
def select_go (server_round : ℕ) (found : Bool) (best : Option (ℕ × ℚ)) :
    List (List Char) → Except Unit (Option (ℕ × ℚ))
  | [] => .ok best
  | line :: rest =>
    if containsSub ("Round " ++ toString server_round).toList line then
      select_go server_round true best rest
    else if found ∧ (dropPre ("Group-".toList) (pyStrip line)).isSome then
      match matchGroup line with
      | none => select_go server_round found best rest
      | some g =>
        match searchMetricNum line with
        | none => select_go server_round found best rest
        | some ds =>
          match pyFloatOfDigits ds with
          | none => .error ()
          | some v =>
            let best2 :=
              match best with
              | none => some (g, v)
              | some bp => if v > bp.2 then some (g, v) else some bp
            select_go server_round found best2 rest
    else if found ∧ pyStrip line = [] then .ok best
    else select_go server_round found best rest

/-- `_select_best_model` (src/strategy.py lines 395-439): parses the
persisted evaluation log (given as its list of lines) and returns the
0-based best cluster with its metric value; `error` models the
`ValueError` raised when nothing was found (and a `float` failure). -/
def select_best_model (server_round : ℕ) (lines : List String) :
    Except Unit (ℤ × ℚ) :=
  match select_go server_round false none (lines.map String.toList) with
  | .error e => .error e
  | .ok none => .error ()
  | .ok (some (g, v)) => .ok ((g : ℤ) - 1, v)

/-- Reference reading of the scan of `_select_best_model`: the ordered
list of `(group, metric value)` pairs the scan considers, with the same
activation-on-substring-match, stop-at-blank-line and float-failure
behaviour as `select_go`.  Used to state what the code selects. -/
def sel_entries (server_round : ℕ) (found : Bool) :
    List (List Char) → Except Unit (List (ℕ × ℚ))
  | [] => .ok []
  | line :: rest =>
    if containsSub ("Round " ++ toString server_round).toList line then
      sel_entries server_round true rest
    else if found ∧ (dropPre ("Group-".toList) (pyStrip line)).isSome then
      match matchGroup line with
      | none => sel_entries server_round found rest
      | some g =>
        match searchMetricNum line with
        | none => sel_entries server_round found rest
        | some ds =>
          match pyFloatOfDigits ds with
          | none => .error ()
          | some v =>
            match sel_entries server_round found rest with
            | .error e => .error e
            | .ok es => .ok ((g, v) :: es)
    else if found ∧ pyStrip line = [] then .ok []
    else sel_entries server_round found rest

/-- The running-best update of the scan (strictly-greater replaces). -/
def stepBest (best : Option (ℕ × ℚ)) (e : ℕ × ℚ) : Option (ℕ × ℚ) :=
  match best with
  | none => some e
  | some bp => if e.2 > bp.2 then some e else some bp

/-- Maximum of the metric values of a nonempty entry list. -/
def maxSnd (l : List (ℕ × ℚ)) : ℚ :=
  (l.map Prod.snd).foldl max (l.headD (0, 0)).2

/-! ### aggregate_evaluate and _compute_group_metrics -/

/-- One evaluate result: client id, `num_examples` and the three metric
values (`res.metrics.get(key, 0)` defaults are already folded in). -/
structure EvalRes where
  cid : String
  num_examples : ℕ
  accuracy : ℚ
  f1_score : ℚ
  log_loss : ℚ
deriving DecidableEq, Repr

/-- `_compute_group_metrics` (src/strategy.py lines 367-392): per-group
`num_examples`-weighted sums of the three metrics, then averages; the
group of a client is `cluster_labels[int(cid) % len(cluster_labels)]`,
used as a Python index into the per-group accumulator list. -/
def compute_group_metrics (num_clusters : ℕ) (cluster_labels : List ℤ)
    (results : List EvalRes) : Except Unit (List (ℚ × ℚ × ℚ)) :=
  let init : List ((ℚ × ℚ × ℚ) × ℕ) :=
    List.replicate num_clusters ((0, 0, 0), 0)
  let stepped : Except Unit (List ((ℚ × ℚ × ℚ) × ℕ)) :=
    foldE (fun acc r =>
      match pyIntOfString r.cid with
      | none => .error ()
      | some cidInt =>
        if cluster_labels.length = 0 then .error ()
        else
          let label := cluster_labels.getD (cidInt % (cluster_labels.length : ℤ)).toNat 0
          match pyListGet acc label with
          | .error e => .error e
          | .ok cur =>
            let pos : ℤ := if label < 0 then (acc.length : ℤ) + label else label
            let upd := ((cur.1.1 + r.accuracy * (r.num_examples : ℚ),
                         cur.1.2.1 + r.f1_score * (r.num_examples : ℚ),
                         cur.1.2.2 + r.log_loss * (r.num_examples : ℚ)),
                        cur.2 + r.num_examples)
            .ok (acc.set pos.toNat upd)) init results
  match stepped with
  | .error e => .error e
  | .ok sums =>
    .ok (sums.map (fun p =>
      if p.2 > 0 then (p.1.1 / p.2, p.1.2.1 / p.2, p.1.2.2 / p.2) else p.1))

/-- Round-half-even to an integer (Python float formatting tie rule). -/
def rhe (x : ℚ) : ℤ :=
  let f := ⌊x⌋
  let r := x - f
  if r < 1/2 then f else if 1/2 < r then f + 1 else if f % 2 = 0 then f else f + 1

/-- Left-pad a digit string with zeros to 4 characters. -/
def pad4 (s : String) : String :=
  (List.asString (List.replicate (4 - s.length) '0')) ++ s

/-- Python `f-string` `:.4f` formatting of a nonnegative value. -/
def formatQ4 (q : ℚ) : String :=
  let n := rhe (q * 10000)
  let sign := if n < 0 then "-" else ""
  let a := n.natAbs
  sign ++ toString (a / 10000) ++ "." ++ pad4 (toString (a % 10000))

/-- `aggregate_evaluate` (src/strategy.py lines 466-568).  `ts` is the
`datetime.now()` timestamp string (external input).  `eval_log` is the
evaluation log file the round appends to (`evaluation_loss.txt` in
dynamic-grouping mode, `aggregated_evaluation_loss.txt` otherwise);
`best_model_file` the persisted best-model artifact
(`best_cluster_model.pth`).  The hardware/resource sampling and the
three per-client score files are writes no claim reads and are not
modelled, except that sorting their entries by `int(cid)` raises on a
non-numeric cid.  Returns the new log, the new best-model artifact and
the scalar result (`none` both for the empty-results early return and
for `aggregated_accuracy = None`); the returned metrics dict is always
empty in the source and is omitted. -/
def aggregate_evaluate (st : StratState) (server_round : ℕ) (ts : String)
    (results : List EvalRes) (eval_log : List String)
    (best_model_file : Option Params) :
    Except Unit (List String × Option Params × Option ℚ) :=
  if results = [] then .ok (eval_log, best_model_file, none)
  else
    let cls := st.model_type = "Image Classification"
    let total_examples : ℕ := if cls then (results.map (fun r => r.num_examples)).sum else 0
    let total_accuracy : ℚ :=
      if cls then (results.map (fun r => r.accuracy * (r.num_examples : ℚ))).sum else 0
    let total_f1 : ℚ :=
      if cls then (results.map (fun r => r.f1_score * (r.num_examples : ℚ))).sum else 0
    let total_logloss : ℚ :=
      if cls then (results.map (fun r => r.log_loss * (r.num_examples : ℚ))).sum else 0
    let aggregated_accuracy : Option ℚ :=
      if total_examples > 0 then some (total_accuracy / total_examples) else none
    let aggregated_f1 : Option ℚ :=
      if total_examples > 0 then some (total_f1 / total_examples) else none
    let aggregated_logloss : Option ℚ :=
      if total_examples > 0 then some (total_logloss / total_examples) else none
    -- .sort(key=lambda x: int(x[0])) on the per-client score lists
    if cls ∧ ¬results.all (fun r => (pyIntOfString r.cid).isSome) then .error ()
    else
      let header := "Time: " ++ ts ++ " - Round " ++ toString server_round
      let blockE : Except Unit (List String) :=
        if st.dynamic_grouping ∧ st.cluster_labels ≠ none then
          match compute_group_metrics st.num_clusters ((st.cluster_labels).getD [])
              results with
          | .error e => .error e
          | .ok group_metrics =>
            .ok (header :: ((List.range group_metrics.length).zip group_metrics).map
              (fun p =>
                "Group-" ++ toString (p.1 + 1) ++ ": Accuracy: " ++ formatQ4 p.2.1
                  ++ ", F1 Score: " ++ formatQ4 p.2.2.1
                  ++ ", Log Loss: " ++ formatQ4 p.2.2.2))
        else
          match aggregated_accuracy, aggregated_f1, aggregated_logloss with
          | some a, some f, some l =>
            .ok [header, "Aggregated Metrics: Accuracy: " ++ formatQ4 a
                  ++ ", F1 Score: " ++ formatQ4 f ++ ", Log Loss: " ++ formatQ4 l]
          | _, _, _ => .error ()
      match blockE with
      | .error e => .error e
      | .ok block =>
        let eval_log2 := eval_log ++ block
        if st.dynamic_grouping then
          -- _select_best_model_and_save (src/strategy.py lines 442-462)
          match select_best_model server_round eval_log2 with
          | .error e => .error e
          | .ok (best_cluster, _) =>
            match alookup st.cluster_models best_cluster with
            | none => .error ()
            | some none => .error ()
            | some (some best_params) =>
              if st.model_type = "Image Anomaly Detection"
                  ∨ st.model_type = "Image Classification" then
                .ok (eval_log2, some best_params, aggregated_accuracy)
              else .error ()
        else .ok (eval_log2, best_model_file, aggregated_accuracy)

/-! ### detect_potential_poisoned_client -/

/-- Dot product of two rational vectors. -/
def dotQ (x y : List ℚ) : ℚ := (List.zipWith (fun a b => a * b) x y).sum

/-- Exact cosine similarity over the reals (sklearn
`cosine_similarity` of the two flattened vectors, with float arithmetic
read as real arithmetic). -/
noncomputable def cosSimR (x y : List ℚ) : ℝ :=
  ((dotQ x y : ℚ) : ℝ) / (Real.sqrt ((dotQ x x : ℚ) : ℝ) * Real.sqrt ((dotQ y y : ℚ) : ℝ))

/-- Exact comparison of two similarity scores against a common reference
vector: the score of a candidate `z` is recorded as the pair
`(dot b z, dot z z)`, and `ltScore a b` decides
`d₁/√q₁ < d₂/√q₂` without leaving ℚ (valid when `q₁, q₂ > 0`). -/
def ltScore (a b : ℚ × ℚ) : Bool :=
  if a.1 < 0 ∧ 0 ≤ b.1 then true
  else if 0 ≤ a.1 ∧ b.1 < 0 then false
  else if 0 ≤ a.1 then decide (a.1 ^ 2 * b.2 < b.1 ^ 2 * a.2)
  else decide (b.1 ^ 2 * a.2 < a.1 ^ 2 * b.2)

/-- Python `min(client_scores, key=client_scores.get)`: the first entry
whose score is minimal (insertion order; replacement only on strictly
smaller). -/
def argminScores : List (String × (ℚ × ℚ)) → Option (String × (ℚ × ℚ))
  | [] => none
  | x :: xs => some (xs.foldl (fun best y => if ltScore y.2 best.2 then y else best) x)

/-- `detect_potential_poisoned_client` (src/strategy.py lines 587-620).
`best_params` is the tensor list of the persisted best cluster model;
each update is the client id with its parameter tensor list.  The score
a client receives is the cosine similarity between over the last tensors,
kept here as the exact pair fed to `ltScore` (floats read as reals).
The poison-report log write is an append no claim reads and is not
modelled. -/
def detect_potential_poisoned_client (model_type : String)
    (best_params : Params) (local_updates : List (String × Params)) :
    Except Unit String :=
  if model_type ≠ "Image Classification" then .error ()
  else
    let best_last_layer := best_params.getLastD []
    let client_scores := local_updates.map (fun u =>
      let local_last_layer := u.2.getLastD []
      (u.1, (dotQ best_last_layer local_last_layer,
             dotQ local_last_layer local_last_layer)))
    match argminScores client_scores with
    | none => .error ()
    | some best => .ok best.1

/-! ### Concrete fixtures used by witnesses and counterexamples -/

/-- A trivially contract-satisfying stand-in for sklearn k-means:
every sample gets label 0. -/
def kfZero : ℕ → List (List ℚ) → List ℕ := fun _ data => data.map (fun _ => 0)

/-- A stand-in for sklearn `cosine_similarity`: the all-ones matrix of
matching shape. -/
def simConst : List Tensor → List (List ℚ) :=
  fun d => d.map (fun _ => d.map (fun _ => (1 : ℚ)))

/-- A freshly constructed coordinator state with `num_clusters = 3` and
dynamic grouping disabled. -/
def stOff : StratState :=
  { dynamic_grouping := false, clustering_frequency := 1, num_clusters := 3,
    model_type := "Image Classification", cluster_labels := none,
    client_cluster_mapping := none,
    cluster_models := [(0, none), (1, none), (2, none)] }

/-- The same state with dynamic grouping enabled. -/
def stOn : StratState := { stOff with dynamic_grouping := true }

/-- A state whose mapping sends client 5 to cluster 0 with an actual
cluster model stored. -/
def stC1 : StratState :=
  { dynamic_grouping := true
    clustering_frequency := 1
    num_clusters := 1
    model_type := "Image Classification"
    cluster_labels := some [0]
    client_cluster_mapping := some [(PKey.kint 5, 0)]
    cluster_models := [(0, some [[7]])] }

/-- A dynamic-grouping state about to run a clustering-round save:
its mapping still has the int key written by `aggregate_parameters`. -/
def stW : StratState :=
  { dynamic_grouping := true
    clustering_frequency := 2
    num_clusters := 2
    model_type := "Image Classification"
    cluster_labels := some [0, 1]
    client_cluster_mapping := some [(PKey.kint 0, 0)]
    cluster_models := [] }

/-- The state after `_save_cluster_assignments` on round 1: the mapping
keys became the string client ids. -/
def stW2 : StratState :=
  { stW with client_cluster_mapping := some [(PKey.kstr "0", 0), (PKey.kstr "1", 1)] }

/-! ## Helper lemmas -/

theorem mapE_ok_mem {α β : Type} (f : α → Except Unit β) :
    ∀ (xs : List α) (ys : List β), mapE f xs = .ok ys →
      ∀ y ∈ ys, ∃ x ∈ xs, f x = .ok y := by
  intro xs
  induction xs with
  | nil =>
    intro ys h y hy
    simp only [mapE] at h
    cases h
    simp at hy
  | cons x xs ih =>
    intro ys h y hy
    simp only [mapE] at h
    cases hfx : f x with
    | error e => rw [hfx] at h; cases h
    | ok b =>
      rw [hfx] at h
      cases hrest : mapE f xs with
      | error e => rw [hrest] at h; cases h
      | ok bs =>
        rw [hrest] at h
        cases h
        rcases List.mem_cons.mp hy with hy | hy
        · exact ⟨x, List.mem_cons_self x xs, by rw [hfx, hy]⟩
        · obtain ⟨x2, hx2, hfx2⟩ := ih bs hrest y hy
          exact ⟨x2, List.mem_cons_of_mem x hx2, hfx2⟩

theorem mapO_eq_none_of_all_none {α β : Type} (f : α → Option β) (xs : List α)
    (hne : xs ≠ []) (hall : ∀ x ∈ xs, f x = none) : mapO f xs = none := by
  cases xs with
  | nil => exact absurd rfl hne
  | cons x xs =>
    simp only [mapO]
    rw [hall x (List.mem_cons_self x xs)]

theorem alookup_isSome_mem_keys {κ β : Type} [DecidableEq κ]
    (m : List (κ × β)) (k : κ) (v : β) (h : alookup m k = some v) :
    k ∈ m.map Prod.fst := by
  induction m with
  | nil => simp [alookup] at h
  | cons p rest ih =>
    simp only [alookup] at h
    by_cases hk : p.1 = k
    · simp [hk]
    · rw [if_neg hk] at h
      simp [ih h]

theorem mkDict_keys_sub {κ β : Type} [DecidableEq κ] (l : List (κ × β)) :
    ∀ k ∈ (mkDict l).map Prod.fst, k ∈ l.map Prod.fst := by
  have main : ∀ (xs : List (κ × β)) (acc : List (κ × β)) (k : κ),
      k ∈ (xs.foldl (fun m p => dictInsert m p.1 p.2) acc).map Prod.fst →
      k ∈ acc.map Prod.fst ∨ k ∈ xs.map Prod.fst := by
    intro xs
    induction xs with
    | nil => intro acc k h; exact Or.inl h
    | cons x xs ih =>
      intro acc k h
      rcases ih (dictInsert acc x.1 x.2) k h with h2 | h2
      · simp only [dictInsert] at h2
        by_cases hk : hasKey acc x.1
        · rw [if_pos hk] at h2
          simp only [List.map_map, List.mem_map] at h2
          obtain ⟨p, hp, hpk⟩ := h2
          by_cases hpx : p.1 = x.1
          · simp only [Function.comp, hpx, if_pos] at hpk
            right; simp [← hpk]
          · simp only [Function.comp, hpx, if_neg, if_false] at hpk
            left; exact hpk ▸ List.mem_map_of_mem Prod.fst hp
        · rw [if_neg hk] at h2
          rw [List.map_append] at h2
          rcases List.mem_append.mp h2 with h3 | h3
          · exact Or.inl h3
          · right; simp at h3; simp [h3]
      · right; simp [h2]
  intro k h
  rcases main l [] k h with h2 | h2
  · simp at h2
  · exact h2

theorem alookup_kint_of_all_kstr {β : Type} (m : List (PKey × β))
    (hall : ∀ k ∈ m.map Prod.fst, ∃ s, k = PKey.kstr s) (i : ℤ) :
    alookup m (PKey.kint i) = none := by
  cases h : alookup m (PKey.kint i) with
  | none => rfl
  | some v =>
    obtain ⟨s, hs⟩ := hall _ (alookup_isSome_mem_keys m _ v h)
    cases hs

theorem alookup_kstr_of_all_kint {β : Type} (m : List (PKey × β))
    (hall : ∀ k ∈ m.map Prod.fst, ∃ i, k = PKey.kint i) (s : String) :
    alookup m (PKey.kstr s) = none := by
  cases h : alookup m (PKey.kstr s) with
  | none => rfl
  | some v =>
    obtain ⟨i, hi⟩ := hall _ (alookup_isSome_mem_keys m _ v h)
    cases hi

/-! ## Claim theorems -/

/-- C10: for every round number, `aggregate_fit` called with an empty
results list returns `(null, empty metrics)` without changing any
coordinator state (the state and both persisted stores are returned
untouched), and `aggregate_evaluate` called with an empty results list
likewise returns `(null, empty metrics)` with its persisted artifacts
untouched. -/
theorem aggregate_fit_evaluate_empty_results :
    (∀ simFn kf (st : StratState) (server_round : ℕ) h5 txt,
      aggregate_fit simFn kf st server_round [] h5 txt = .ok (st, h5, txt, none)) ∧
    (∀ (st : StratState) (server_round : ℕ) ts eval_log best_model_file,
      aggregate_evaluate st server_round ts [] eval_log best_model_file =
        .ok (eval_log, best_model_file, none)) := by
  constructor
  · intro simFn kf st server_round h5 txt
    simp [aggregate_fit]
  · intro st server_round ts eval_log best_model_file
    simp [aggregate_evaluate]


theorem ap_labels_ok_fields (simFn : List Tensor → List (List ℚ))
    (kf : ℕ → List (List ℚ) → List ℕ) (st : StratState) (pl : List Params)
    (server_round : ℕ) (cl : List ℤ) (stA : StratState)
    (h : ap_labels simFn kf st pl server_round = .ok (cl, stA)) :
    stA.num_clusters = st.num_clusters ∧
    stA.dynamic_grouping = st.dynamic_grouping ∧
    stA.clustering_frequency = st.clustering_frequency ∧
    stA.cluster_models = st.cluster_models ∧
    stA.model_type = st.model_type := by
  simp only [ap_labels] at h
  by_cases hc : is_clustering_round server_round st.clustering_frequency
  · rw [if_pos hc] at h
    cases ha : assign_clusters_with_dynamic_threshold kf
        (simFn (pl.map (fun ps => ps.flatten))) st.num_clusters with
    | error e => simp only [ha] at h; cases h
    | ok ls2 =>
      simp only [ha] at h
      by_cases hlen : pl.length ≤ ls2.length
      · rw [if_pos hlen] at h
        cases h
        exact ⟨rfl, rfl, rfl, rfl, rfl⟩
      · rw [if_neg hlen] at h; cases h
  · rw [if_neg hc] at h
    cases hcl : st.cluster_labels with
    | none => simp only [hcl] at h; cases h
    | some cl0 =>
      simp only [hcl] at h
      by_cases hlen : pl.length ≤ cl0.length
      · rw [if_pos hlen] at h
        cases h
        exact ⟨rfl, rfl, rfl, rfl, rfl⟩
      · rw [if_neg hlen] at h; cases h

/-- C9: with dynamic grouping disabled, `aggregate_fit` on a non-empty
result list returns the plain unweighted element-wise arithmetic mean of
the submitted parameter sets, ignoring each result's `num_examples`
(for parameter sets `[1,1]`, `[3,3]`, `[5,5]` the aggregate is `[3,3]`
for every assignment of `num_examples` values); and in dynamic grouping
every stored cluster model is that same unweighted mean of the
corresponding cluster's member parameter sets. -/
theorem aggregate_fit_unweighted_mean :
    (∀ simFn kf (st : StratState) (server_round : ℕ) results h5 txt agg,
      st.dynamic_grouping = false → results ≠ [] →
      meanParamsList (results.map (fun r => r.parameters)) = .ok agg →
      aggregate_fit simFn kf st server_round results h5 txt = .ok (st, h5, txt, some agg)) ∧
    (∀ simFn kf (st : StratState) (server_round : ℕ) h5 txt (n1 n2 n3 : ℕ),
      st.dynamic_grouping = false →
      aggregate_fit simFn kf st server_round
        [⟨"0", [[1, 1]], n1⟩, ⟨"1", [[3, 3]], n2⟩, ⟨"2", [[5, 5]], n3⟩] h5 txt =
        .ok (st, h5, txt, some [[3, 3]])) ∧
    (∀ simFn kf (st st1 : StratState) parameters_list (server_round : ℕ) fin ls c p,
      aggregate_parameters simFn kf st parameters_list server_round =
        .ok (st1, fin, some ls) →
      (c, some p) ∈ st1.cluster_models →
      ∃ c2 : ℤ, 0 ≤ c2 ∧ c2 < (st.num_clusters : ℤ) ∧
        cluster_member_params parameters_list ls c2 ≠ [] ∧
        meanParamsList (cluster_member_params parameters_list ls c2) = .ok p) := by
  refine ⟨?_, ?_, ?_⟩
  · intro simFn kf st server_round results h5 txt agg hdyn hne hmean
    simp [aggregate_fit, hne, hdyn, hmean]
  · intro simFn kf st server_round h5 txt n1 n2 n3 hdyn
    have hmean : meanParamsList [[[1, 1]], [[3, 3]], [[5, 5]]] = Except.ok [[3, 3]] := by
      simp [meanParamsList, pyZip, pyZipGo, headsTails, mapE, meanTensors, listMean]
      norm_num
    simp [aggregate_fit, hdyn, hmean]
  ·
    intro simFn kf st st1 parameters_list server_round fin ls c p hagg hmem
    simp only [aggregate_parameters] at hagg
    by_cases hdyn : st.dynamic_grouping
    · rw [if_pos hdyn] at hagg
      cases hL : ap_labels simFn kf st parameters_list server_round with
      | error e => simp only [hL] at hagg; cases hagg
      | ok pr =>
        simp only [hL] at hagg
        obtain ⟨cl, stA⟩ := pr
        simp only [ap_aggregate] at hagg
        cases hM : mapE meanParamsList
            ((List.range stA.num_clusters).filterMap (fun cc =>
              if cluster_member_params parameters_list cl (cc : ℤ) = [] then none
              else some (cluster_member_params parameters_list cl (cc : ℤ)))) with
        | error e => simp only [hM] at hagg; cases hagg
        | ok aggp =>
          simp only [hM] at hagg
          cases hF : (if aggp ≠ [] then meanParamsList aggp
              else .ok (zerosLike (parameters_list.headD []))) with
          | error e => simp only [hF] at hagg; cases hagg
          | ok fin2 =>
            simp only [hF] at hagg
            injection hagg with hagg2
            simp only [Prod.mk.injEq] at hagg2
            obtain ⟨hst, hfin, hls⟩ := hagg2
            have hls2 : cl = ls := Option.some.inj hls
            have hcm : st1.cluster_models =
                ((List.range aggp.length).zip aggp).map
                  (fun q => ((q.1 : ℤ), some q.2)) := by
              rw [← hst]
            rw [hcm] at hmem
            rw [List.mem_map] at hmem
            obtain ⟨q, hq, hqe⟩ := hmem
            have hp : q.2 = p := by
              have := (Prod.ext_iff.mp hqe).2
              simpa using this
            have hq2 : q.2 ∈ aggp := (List.of_mem_zip hq).2
            rw [hp] at hq2
            obtain ⟨mem, hmemS, hmean⟩ := mapE_ok_mem meanParamsList _ _ hM p hq2
            rw [List.mem_filterMap] at hmemS
            obtain ⟨cc, hcc, hccm⟩ := hmemS
            obtain ⟨a, ha, hacc⟩ : ∃ a, a < stA.num_clusters ∧ cc = (a : ℤ) := by
              simpa using hcc
            by_cases hne : cluster_member_params parameters_list cl cc = []
            · rw [if_pos hne] at hccm; cases hccm
            · rw [if_neg hne] at hccm
              injection hccm with hccm2
              have hnum := (ap_labels_ok_fields simFn kf st parameters_list
                server_round cl stA hL).1
              refine ⟨cc, ?_, ?_, ?_, ?_⟩
              · rw [hacc]; exact Int.ofNat_nonneg a
              · have h3 : a < st.num_clusters := hnum ▸ ha
                rw [hacc]
                exact_mod_cast h3
              · rw [← hls2]; exact hne
              · rw [← hls2, hccm2]; exact hmean
    · rw [if_neg hdyn] at hagg
      cases hm : meanParamsList parameters_list with
      | error e => simp only [hm] at hagg; cases hagg
      | ok f2 => simp only [hm] at hagg; cases hagg

/-- Witness for C9 at concrete inputs. -/
theorem aggregate_fit_unweighted_mean_witness :
    (stOff.dynamic_grouping = false ∧
      aggregate_fit simConst kfZero stOff 4
        [⟨"0", [[1, 1]], 10⟩, ⟨"1", [[3, 3]], 99⟩, ⟨"2", [[5, 5]], 1⟩] [] [] =
        .ok (stOff, [], [], some [[3, 3]])) ∧
    (aggregate_parameters simConst kfZero stOn [[[1, 1]], [[3, 3]], [[5, 5]]] 1 =
        .ok ({ stOn with
                 cluster_labels := some [0, 0, 0]
                 client_cluster_mapping := some
                   [(PKey.kint 0, 0), (PKey.kint 1, 0), (PKey.kint 2, 0)]
                 cluster_models := [(0, some [[3, 3]])] }, [[3, 3]], some [0, 0, 0]) ∧
      ∃ c2 : ℤ, 0 ≤ c2 ∧ c2 < (stOn.num_clusters : ℤ) ∧
        cluster_member_params [[[1, 1]], [[3, 3]], [[5, 5]]] [0, 0, 0] c2 ≠ [] ∧
        meanParamsList (cluster_member_params [[[1, 1]], [[3, 3]], [[5, 5]]] [0, 0, 0] c2) =
          .ok [[3, 3]]) := by
  have hoff : stOff.dynamic_grouping = false := rfl
  have hagg : aggregate_parameters simConst kfZero stOn [[[1, 1]], [[3, 3]], [[5, 5]]] 1 =
      .ok ({ stOn with
               cluster_labels := some [0, 0, 0]
               client_cluster_mapping := some
                 [(PKey.kint 0, 0), (PKey.kint 1, 0), (PKey.kint 2, 0)]
               cluster_models := [(0, some [[3, 3]])] }, [[3, 3]], some [0, 0, 0]) := by
    simp [aggregate_parameters, ap_labels, ap_aggregate, stOn, stOff, simConst, kfZero,
      is_clustering_round, assign_clusters_with_dynamic_threshold, percentile25, sortQ,
      insertQ, rowMean, listMean, kmeansCall, mkDict, dictInsert, hasKey, alookup,
      cluster_member_params, meanParamsList, mapE, meanTensors, pyZip, pyZipGo, headsTails,
      List.range_succ, zerosLike]
    norm_num [Except.map, List.filterMap, List.flatMap, List.getD, mapE, meanTensors,
      pyZip, pyZipGo, headsTails, listMean, meanParamsList, zerosLike, List.range_succ]
  refine ⟨⟨hoff, (aggregate_fit_unweighted_mean.2.1 simConst kfZero stOff 4 [] [] 10 99 1 hoff)⟩,
          hagg, ?_⟩
  exact (aggregate_fit_unweighted_mean.2.2 simConst kfZero stOn _ _ 1 _ _ 0 [[3, 3]] hagg
    (by simp))

/-- C1 counterexample: a state in which client 5 is mapped to cluster 0
whose `cluster_models` entry is Python `None`.  The claim says the
client must then receive the `globalParameters` passed in; the code
instead puts the `None` entry into the `FitIns` unchanged
(`configure_fit` has no non-empty check, unlike `configure_evaluate`). -/
theorem configure_fit_sends_none_cluster_model :
    configure_fit_params
      { dynamic_grouping := true
        clustering_frequency := 1
        num_clusters := 1
        model_type := "Image Classification"
        cluster_labels := some [0]
        client_cluster_mapping := some [(PKey.kint 5, 0)]
        cluster_models := [(0, none)] } 2 [[1]] "5" = .ok none ∧
    (Except.ok none : Except Unit (Option Params)) ≠ .ok (some [[1]]) := by
  constructor
  · rfl
  · intro h
    cases h

/-- C1 amended: in `configure_fit`, with dynamic grouping enabled and
`server_round > 1`, a mapped client receives exactly the stored
`cluster_models` entry of its label — without any non-emptiness check, so
a `None` entry is sent as `None` and a missing label raises `KeyError` —
and the client receives `globalParameters` exactly in the remaining
cases: grouping disabled, `server_round ≤ 1`, mapping attribute absent,
or client id not a key of the mapping. -/
theorem configure_fit_params_characterization
    (st : StratState) (server_round : ℕ) (parameters : Params)
    (cid : String) (i : ℤ) (hcid : pyIntOfString cid = some i) :
    ((st.dynamic_grouping = true ∧ server_round > 1) →
      ∀ m cluster, st.client_cluster_mapping = some m →
        alookup m (PKey.kint i) = some cluster →
        configure_fit_params st server_round parameters cid =
          match alookup st.cluster_models cluster with
          | some mp => .ok mp
          | none => .error ()) ∧
    (¬(st.dynamic_grouping = true ∧ server_round > 1) →
      configure_fit_params st server_round parameters cid = .ok (some parameters)) ∧
    ((st.client_cluster_mapping = none ∨
        ∃ m, st.client_cluster_mapping = some m ∧ alookup m (PKey.kint i) = none) →
      configure_fit_params st server_round parameters cid = .ok (some parameters)) := by
  refine ⟨?_, ?_, ?_⟩
  · rintro ⟨hdyn, hr⟩ m cluster hm hl
    simp [configure_fit_params, hcid, hdyn, hr, hm, hl]
  · intro hnot
    simp only [configure_fit_params, hcid]
    rw [if_neg ?_]
    intro ⟨h1, h2⟩
    exact hnot ⟨h1, h2⟩
  · rintro (hm | ⟨m, hm, hl⟩)
    · simp [configure_fit_params, hcid, hm]
    · simp [configure_fit_params, hcid, hm, hl]

/-- Witness for the C1 amended theorem at concrete inputs. -/
theorem configure_fit_params_characterization_witness :
    pyIntOfString "5" = some 5 ∧
    configure_fit_params stC1 2 [[1]] "5" = .ok (some [[7]]) ∧
    configure_fit_params stC1 1 [[1]] "5" = .ok (some [[1]]) := by
  have hcid : pyIntOfString "5" = some 5 := by decide
  refine ⟨hcid, ?_, ?_⟩
  · have h := (configure_fit_params_characterization stC1 2 [[1]] "5" 5 hcid).1
      (by exact ⟨rfl, by norm_num⟩) [(PKey.kint 5, 0)] 0 rfl (by decide)
    simpa [stC1, alookup] using h
  · exact (configure_fit_params_characterization stC1 1 [[1]] "5" 5 hcid).2.1
      (by intro hran; exact absurd hran.2 (by norm_num))

/-- C2: after `_save_cluster_assignments` runs on a clustering round, the
keys of `client_cluster_mapping` are the string client ids, while
`configure_fit` and `configure_evaluate` look up `int(client.cid)`; the
membership test therefore fails for every sampled client and both
methods fall back to sending the global parameters. -/
theorem save_string_keys_break_cluster_lookup
    (st : StratState) (result_cids : List String) (ls : List ℤ)
    (server_round : ℕ) (h5 : H5Store) (txt : List String)
    (st1 : StratState) (h5a : H5Store) (txta : List String)
    (hdyn : st.dynamic_grouping = true)
    (hclust : is_clustering_round server_round st.clustering_frequency = true)
    (hok : save_cluster_assignments st result_cids (some ls) server_round h5 txt =
      .ok (st1, h5a, txta)) :
    (∃ m, st1.client_cluster_mapping = some m ∧
       ∀ k ∈ m.map Prod.fst, ∃ s, k = PKey.kstr s) ∧
    (∀ (round2 : ℕ) (gp : Params) (cid : String) (i : ℤ),
       pyIntOfString cid = some i →
       configure_fit_params st1 round2 gp cid = .ok (some gp)) ∧
    (∀ (round2 : ℕ) (gp : Params) (cid : String) (i : ℤ),
       pyIntOfString cid = some i →
       configure_evaluate_params st1 round2 gp cid = .ok gp) := by
  have hmap : ∃ m, st1.client_cluster_mapping = some m ∧
      ∀ k ∈ m.map Prod.fst, ∃ s, k = PKey.kstr s := by
    simp only [save_cluster_assignments, hdyn, Option.getD_some] at hok
    rw [if_neg (by simp)] at hok
    rw [hclust] at hok
    simp only [if_true] at hok
    by_cases hlen : (sortIds result_cids).length ≤ ls.length
    · rw [if_pos hlen] at hok
      set pairs := ((List.range (sortIds result_cids).length).zip (sortIds result_cids)).map
        (fun p => (PKey.kstr p.2, ls.getD p.1 0)) with hpairs
      cases hmo : mapO (fun cid => alookup (mkDict pairs) (PKey.kstr cid)) (sortIds result_cids) with
      | none => simp only [hmo] at hok; cases hok
      | some labsOut =>
        simp only [hmo] at hok
        cases hh5 : alookup h5 server_round with
        | none =>
          simp only [hh5] at hok
          injection hok with hok2
          simp only [Prod.mk.injEq] at hok2
          refine ⟨mkDict pairs, by rw [← hok2.1], ?_⟩
          intro k hk
          have hk2 := mkDict_keys_sub pairs k hk
          rw [hpairs] at hk2
          simp only [List.map_map, List.mem_map] at hk2
          obtain ⟨p, _, hp⟩ := hk2
          exact ⟨p.2, hp.symm⟩
        | some old =>
          simp only [hh5] at hok
          cases hc2 : h5Overwrite old.1 (sortIds result_cids) with
          | error e => simp only [hc2] at hok; cases hok
          | ok c2 =>
            cases hl2 : h5Overwrite old.2 labsOut with
            | error e => simp only [hc2, hl2] at hok; cases hok
            | ok l2 =>
              simp only [hc2, hl2] at hok
              injection hok with hok2
              simp only [Prod.mk.injEq] at hok2
              refine ⟨mkDict pairs, by rw [← hok2.1], ?_⟩
              intro k hk
              have hk2 := mkDict_keys_sub pairs k hk
              rw [hpairs] at hk2
              simp only [List.map_map, List.mem_map] at hk2
              obtain ⟨p, _, hp⟩ := hk2
              exact ⟨p.2, hp.symm⟩
    · rw [if_neg hlen] at hok
      cases hok
  obtain ⟨m, hm, hstr⟩ := hmap
  have hnone : ∀ i : ℤ, alookup m (PKey.kint i) = none :=
    fun i => alookup_kint_of_all_kstr m hstr i
  refine ⟨⟨m, hm, hstr⟩, ?_, ?_⟩
  · intro round2 gp cid i hcid
    simp only [configure_fit_params, hcid, hm, hnone]
    by_cases hc : st1.dynamic_grouping = true ∧ round2 > 1
    · rw [if_pos hc]
    · rw [if_neg hc]
  · intro round2 gp cid i hcid
    simp only [configure_evaluate_params, hcid, hm, hnone]
    by_cases hc : st1.dynamic_grouping = true ∧ round2 > 1
    · rw [if_pos hc]
    · rw [if_neg hc]

/-- Witness for C2 at concrete inputs. -/
theorem save_string_keys_break_cluster_lookup_witness :
    stW.dynamic_grouping = true ∧
    is_clustering_round 1 stW.clustering_frequency = true ∧
    save_cluster_assignments stW ["1", "0"] (some [0, 1]) 1 [] [] =
      .ok (stW2, [(1, (["0", "1"], [0, 1]))],
        ["Server Round 1:", "Client ID: 0, Cluster: 0", "Client ID: 1, Cluster: 1", ""]) ∧
    configure_fit_params stW2 5 [] "0" = .ok (some []) ∧
    configure_evaluate_params stW2 5 [] "1" = .ok [] := by
  have hdyn : stW.dynamic_grouping = true := rfl
  have hclust : is_clustering_round 1 stW.clustering_frequency = true := by decide
  have hok : save_cluster_assignments stW ["1", "0"] (some [0, 1]) 1 [] [] =
      .ok (stW2, [(1, (["0", "1"], [0, 1]))],
        ["Server Round 1:", "Client ID: 0, Cluster: 0", "Client ID: 1, Cluster: 1", ""]) := by
    decide
  have h := save_string_keys_break_cluster_lookup stW ["1", "0"] [0, 1] 1 [] []
    stW2 [(1, (["0", "1"], [0, 1]))]
    ["Server Round 1:", "Client ID: 0, Cluster: 0", "Client ID: 1, Cluster: 1", ""]
    hdyn hclust hok
  exact ⟨hdyn, hclust, hok, h.2.1 5 [] "0" 0 (by decide), h.2.2 5 [] "1" 1 (by decide)⟩

theorem foldl_set_length {β : Type} (ps : List (ℕ × β)) (init : List β) :
    (ps.foldl (fun acc p => acc.set p.1 p.2) init).length = init.length := by
  induction ps generalizing init with
  | nil => rfl
  | cons p ps ih => simp [List.foldl_cons, ih, List.length_set]

theorem foldl_set_getElem? {β : Type} (ps : List (ℕ × β)) (init : List β) (j : ℕ)
    (hnd : (ps.map Prod.fst).Nodup) :
    (ps.foldl (fun acc p => acc.set p.1 p.2) init)[j]? =
      match ps.find? (fun p => decide (p.1 = j)) with
      | some p => if j < init.length then some p.2 else none
      | none => init[j]? := by
  induction ps generalizing init with
  | nil => simp
  | cons p ps ih =>
    simp only [List.map_cons, List.nodup_cons] at hnd
    rw [List.foldl_cons]
    rw [ih (init.set p.1 p.2) hnd.2]
    by_cases hj : p.1 = j
    · subst hj
      have hfind : ps.find? (fun q => decide (q.1 = p.1)) = none := by
        rw [List.find?_eq_none]
        intro q hq
        simp only [decide_eq_true_eq]
        intro hq2
        exact hnd.1 (hq2 ▸ List.mem_map_of_mem Prod.fst hq)
      have hfind2 : (p :: ps).find? (fun q => decide (q.1 = p.1)) = some p := by
        rw [List.find?_cons_of_pos]
        simp
      rw [hfind, hfind2]
      by_cases hlt : p.1 < init.length
      · rw [List.getElem?_set_eq_of_lt p.2 hlt]
        simp [hlt]
      · have hset : init.set p.1 p.2 = init := List.set_eq_of_length_le (by omega)
        rw [hset, List.getElem?_eq_none (by omega)]
        simp [hlt]
    · have hfind2 : (p :: ps).find? (fun q => decide (q.1 = j)) =
          ps.find? (fun q => decide (q.1 = j)) := by
        rw [List.find?_cons_of_neg]
        simp [hj]
      rw [hfind2]
      have hset : (init.set p.1 p.2)[j]? = init[j]? := List.getElem?_set_ne hj
      rw [hset]
      simp [List.length_set]

theorem find?_zip_mem (keys : List ℕ) (vals : List ℤ) (j : ℕ)
    (hj : j ∈ keys) (hlen : vals.length = keys.length) :
    (keys.zip vals).find? (fun p => decide (p.1 = j)) =
      some (j, vals.getD (keys.indexOf j) 0) := by
  induction keys generalizing vals with
  | nil => simp at hj
  | cons k ks ih =>
    cases vals with
    | nil => simp at hlen
    | cons v vs =>
      simp only [List.length_cons, Nat.succ.injEq] at hlen
      rw [List.zip_cons_cons]
      by_cases hjk : j = k
      · subst hjk
        rw [List.find?_cons_of_pos _ (by simp)]
        simp [List.indexOf_cons_self]
      · rw [List.find?_cons_of_neg _ (by simp [Ne.symm hjk])]
        have hj2 : j ∈ ks := by
          rcases List.mem_cons.mp hj with h | h
          · exact absurd h hjk
          · exact h
        rw [ih vs hj2 hlen]
        have hidx : (k :: ks).indexOf j = ks.indexOf j + 1 := by
          rw [List.indexOf_cons_ne]
          exact fun h => hjk h.symm
        rw [hidx]
        rfl

theorem find?_zip_not_mem {β : Type} (keys : List ℕ) (vals : List β) (j : ℕ)
    (hj : j ∉ keys) :
    (keys.zip vals).find? (fun p => decide (p.1 = j)) = none := by
  rw [List.find?_eq_none]
  intro p hp
  simp only [decide_eq_true_eq]
  intro hpj
  exact hj (hpj ▸ (List.of_mem_zip hp).1)

theorem length_filter_partition (l : List ℕ) (f : ℕ → ℚ) (t : ℚ) :
    (l.filter (fun i => decide (f i < t))).length +
      (l.filter (fun i => decide (t ≤ f i))).length = l.length := by
  induction l with
  | nil => rfl
  | cons x xs ih =>
    by_cases hx : f x < t
    · rw [List.filter_cons_of_pos (by simpa using hx),
        List.filter_cons_of_neg (by simpa using not_le.mpr hx)]
      simp only [List.length_cons]
      omega
    · rw [List.filter_cons_of_neg (by simpa using hx),
        List.filter_cons_of_pos (by simpa using not_lt.mp hx)]
      simp only [List.length_cons]
      omega

theorem scatter_eq_map (n : ℕ) (out norm : List ℕ) (vals : List ℤ)
    (hnd : norm.Nodup) (hsub : ∀ j ∈ norm, j < n)
    (hlen : vals.length = norm.length)
    (hcompl : ∀ j, j < n → (j ∈ out ↔ j ∉ norm)) :
    (norm.zip vals).foldl (fun acc p => acc.set p.1 p.2)
        (List.replicate n (0 : ℤ)) =
      (List.range n).map (fun i =>
        if i ∈ out then (0 : ℤ) else vals.getD (norm.indexOf i) 0) := by
  have hfst : (norm.zip vals).map Prod.fst = norm := by
    rw [List.map_fst_zip]
    omega
  apply List.ext_getElem?
  intro j
  rw [foldl_set_getElem? _ _ _ (by rw [hfst]; exact hnd)]
  by_cases hjn : j < n
  · have hrhs : ((List.range n).map (fun i =>
        if i ∈ out then (0 : ℤ) else vals.getD (norm.indexOf i) 0))[j]? =
        some (if j ∈ out then (0 : ℤ) else vals.getD (norm.indexOf j) 0) := by
      rw [List.getElem?_map]
      rw [List.getElem?_range hjn]
      rfl
    rw [hrhs]
    by_cases hjm : j ∈ norm
    · rw [find?_zip_mem norm vals j hjm hlen]
      have hjlen : j < (List.replicate n (0 : ℤ)).length := by simpa using hjn
      have hnot : j ∉ out := fun hout => ((hcompl j hjn).mp hout) hjm
      simp [hjlen, hnot, hjn]
    · rw [find?_zip_not_mem norm vals j hjm]
      have hout : j ∈ out := (hcompl j hjn).mpr hjm
      simp [hout, hjn]
  · have h1 : (List.replicate n (0 : ℤ))[j]? = none :=
      List.getElem?_eq_none (by simpa using Nat.le_of_not_lt hjn)
    have h2 : ((List.range n).map (fun i =>
        if i ∈ out then (0 : ℤ) else vals.getD (norm.indexOf i) 0))[j]? = none :=
      List.getElem?_eq_none (by simpa using Nat.le_of_not_lt hjn)
    rw [h2]
    cases hf : (norm.zip vals).find? (fun p => decide (p.1 = j)) with
    | none => exact h1
    | some p =>
      have hp : p.1 ∈ norm := by
        have := List.mem_of_find?_eq_some hf
        exact (List.of_mem_zip this).1
      have hpj : p.1 = j := by
        have := List.find?_some hf
        simpa using this
      exact absurd (hpj ▸ hsub p.1 hp) hjn

theorem foldl_set_offset (ps : List (ℕ × ℕ)) (init : List ℤ) :
    ps.foldl (fun acc p => acc.set p.1 ((p.2 : ℤ) + 1)) init =
      (ps.map (fun p => (p.1, (p.2 : ℤ) + 1))).foldl (fun acc p => acc.set p.1 p.2) init := by
  induction ps generalizing init with
  | nil => rfl
  | cons p ps ih =>
    simp only [List.foldl_cons, List.map_cons]
    exact ih _

theorem zip_map_offset (keys : List ℕ) (vals : List ℕ) :
    (keys.zip vals).map (fun p => (p.1, (p.2 : ℤ) + 1)) =
      keys.zip (vals.map (fun (c : ℕ) => (c : ℤ) + 1)) := by
  induction keys generalizing vals with
  | nil => simp
  | cons k ks ih =>
    cases vals with
    | nil => simp
    | cons v vs => simp [ih]

theorem assign_eq_spec (kf : ℕ → List (List ℚ) → List ℕ) (hkf : KContract kf)
    (sim : List (List ℚ)) (k : ℕ) :
    assign_clusters_with_dynamic_threshold kf sim k = assignClustersSpec kf sim k := by
  simp only [assign_clusters_with_dynamic_threshold, assignClustersSpec]
  set n := sim.length with hn
  set avg := sim.map rowMean with havg
  set thr := percentile25 avg with hthr
  set out := (List.range n).filter (fun i => avg.getD i 0 < thr) with hout
  set norm := (List.range n).filter (fun i => thr ≤ avg.getD i 0) with hnorm
  by_cases hbr : out.length = 0 ∨ out.length = n
  · rw [if_pos hbr, if_pos hbr]
  · rw [if_neg hbr, if_neg hbr]
    have hpart : out.length + norm.length = n := by
      have := length_filter_partition (List.range n) (fun i => avg.getD i 0) thr
      simpa [hout, hnorm] using this
    have hnpos : norm.length > 0 := by
      rcases Nat.lt_or_ge 0 norm.length with h | h
      · exact h
      · exfalso
        have hz : norm.length = 0 := Nat.le_zero.mp h
        rw [hz] at hpart
        exact hbr (Or.inr (by omega))
    rw [if_pos hnpos]
    set sub := norm.map (fun i => norm.map (fun j => (sim.getD i []).getD j 0)) with hsub
    cases hkm : kmeansCall kf (k - 1) sub with
    | error e => rfl
    | ok nl =>
      dsimp only
      congr 1
      have hcond : 1 ≤ k - 1 ∧ k - 1 ≤ sub.length ∧ nl = kf (k - 1) sub := by
        unfold kmeansCall at hkm
        by_cases hc : 1 ≤ k - 1 ∧ k - 1 ≤ sub.length
        · rw [if_pos hc] at hkm
          injection hkm with h2
          exact ⟨hc.1, hc.2, h2.symm⟩
        · rw [if_neg hc] at hkm
          cases hkm
      have hnl : nl.length = norm.length := by
        have := (hkf (k - 1) sub hcond.1 hcond.2.1).1
        rw [← hcond.2.2] at this
        rw [this, hsub, List.length_map]
      have hndnorm : norm.Nodup := List.Nodup.filter _ (List.nodup_range n)
      have hsubn : ∀ j ∈ norm, j < n := by
        intro j hj
        rw [hnorm] at hj
        exact List.mem_range.mp (List.mem_of_mem_filter hj)
      have hcompl : ∀ j, j < n → (j ∈ out ↔ j ∉ norm) := by
        intro j hj
        rw [hout, hnorm]
        simp only [List.mem_filter, List.mem_range, decide_eq_true_eq]
        constructor
        · rintro ⟨-, hlt⟩ ⟨-, hle⟩
          exact absurd hle (not_le.mpr hlt)
        · intro hnot
          refine ⟨hj, ?_⟩
          by_contra hge
          exact hnot ⟨hj, not_lt.mp hge⟩
      rw [foldl_set_offset, zip_map_offset]
      rw [scatter_eq_map n out norm (nl.map (fun (c : ℕ) => (c : ℤ) + 1)) hndnorm hsubn
        (by rw [List.length_map, hnl]) hcompl]
      apply List.map_congr_left
      intro i hi
      by_cases hio : i ∈ out
      · rw [if_pos hio, if_pos hio]
      · rw [if_neg hio, if_neg hio]
        have him : i ∈ norm := by
          by_contra hnm
          exact hio ((hcompl i (List.mem_range.mp hi)).mpr hnm)
        have hidx : norm.indexOf i < nl.length := by
          rw [hnl]
          exact List.indexOf_lt_length.mpr him
        rw [List.getD_eq_getElem _ _ (by rw [List.length_map]; exact hidx)]
        rw [List.getElem_map]
        rw [List.getD_eq_getElem _ _ hidx]

theorem getD_mem_or {α : Type} (l : List α) (i : ℕ) (d : α) :
    l.getD i d ∈ l ∨ l.getD i d = d := by
  by_cases h : i < l.length
  · left
    rw [List.getD_eq_getElem l d h]
    exact List.getElem_mem h
  · right
    exact List.getD_eq_default l d (Nat.le_of_not_lt h)

theorem kmeansCall_ok (kf : ℕ → List (List ℚ) → List ℕ) (k : ℕ)
    (data : List (List ℚ)) (ls : List ℕ) (h : kmeansCall kf k data = .ok ls) :
    1 ≤ k ∧ k ≤ data.length ∧ ls = kf k data := by
  unfold kmeansCall at h
  by_cases hc : 1 ≤ k ∧ k ≤ data.length
  · rw [if_pos hc] at h
    injection h with h2
    exact ⟨hc.1, hc.2, h2.symm⟩
  · rw [if_neg hc] at h
    cases h

theorem spec_labels_bound (kf : ℕ → List (List ℚ) → List ℕ) (hkf : KContract kf)
    (sim : List (List ℚ)) (k : ℕ) (labels : List ℤ)
    (h : assignClustersSpec kf sim k = .ok labels) :
    labels.length = sim.length ∧ ∀ l ∈ labels, 0 ≤ l ∧ l < (k : ℤ) := by
  simp only [assignClustersSpec] at h
  set n := sim.length with hn
  by_cases hbr : ((List.range n).filter
      (fun i => (sim.map rowMean).getD i 0 < percentile25 (sim.map rowMean))).length = 0 ∨
      ((List.range n).filter
      (fun i => (sim.map rowMean).getD i 0 < percentile25 (sim.map rowMean))).length = n
  · rw [if_pos hbr] at h
    cases hkm : kmeansCall kf k sim with
    | error e => rw [hkm] at h; cases h
    | ok ls =>
      rw [hkm] at h
      injection h with h2
      obtain ⟨hk1, hk2, hls⟩ := kmeansCall_ok kf k sim ls hkm
      have hcontract := hkf k sim hk1 hk2
      rw [← hls] at hcontract
      constructor
      · rw [← h2, List.length_map, hcontract.1, hn]
      · intro l hl
        rw [← h2] at hl
        rw [List.mem_map] at hl
        obtain ⟨c, hc, hcl⟩ := hl
        have := hcontract.2 c hc
        constructor
        · rw [← hcl]; exact Int.ofNat_nonneg c
        · rw [← hcl]; exact_mod_cast this
  · rw [if_neg hbr] at h
    cases hkm : kmeansCall kf (k - 1)
        (((List.range n).filter
          (fun i => percentile25 (sim.map rowMean) ≤ (sim.map rowMean).getD i 0)).map
          (fun i => ((List.range n).filter
            (fun j2 => percentile25 (sim.map rowMean) ≤ (sim.map rowMean).getD j2 0)).map
            (fun j => (sim.getD i []).getD j 0))) with
    | error e => rw [hkm] at h; cases h
    | ok nl =>
      rw [hkm] at h
      injection h with h2
      obtain ⟨hk1, hk2, hls⟩ := kmeansCall_ok _ _ _ _ hkm
      have hk2c : 2 ≤ k := by omega
      have hbound : ∀ c ∈ nl, c < k - 1 := by
        have := (hkf _ _ hk1 hk2).2
        rw [← hls] at this
        exact this
      constructor
      · rw [← h2, List.length_map, List.length_range, hn]
      · intro l hl
        rw [← h2, List.mem_map] at hl
        obtain ⟨i, hi, hil⟩ := hl
        by_cases hio : i ∈ (List.range n).filter
            (fun i2 => (sim.map rowMean).getD i2 0 < percentile25 (sim.map rowMean))
        · rw [if_pos hio] at hil
          rw [← hil]
          constructor
          · exact le_refl 0
          · exact_mod_cast Nat.lt_of_lt_of_le Nat.zero_lt_two hk2c
        · rw [if_neg hio] at hil
          rw [← hil]
          have hvb : nl.getD (((List.range n).filter
              (fun i2 => percentile25 (sim.map rowMean) ≤ (sim.map rowMean).getD i2 0)).indexOf i) 0
              + 1 < k := by
            rcases getD_mem_or nl (((List.range n).filter
                (fun i2 => percentile25 (sim.map rowMean) ≤ (sim.map rowMean).getD i2 0)).indexOf i) 0
              with hm | hd
            · have := hbound _ hm
              omega
            · rw [hd]
              omega
          constructor
          · positivity
          · exact_mod_cast hvb

/-- C4: the clusterer computes per-client average similarity over each
row, takes the 25th percentile as threshold, and: if the set of clients
strictly below threshold is empty or is all clients, it runs k-means
with `num_clusters` on the full similarity matrix and returns those
labels unmodified; otherwise all below-threshold clients get label 0,
k-means with `num_clusters - 1` is run on the similarity sub-matrix
restricted to the remaining clients, and each resulting label c is
mapped to c+1 for those clients.  Stated as: the source function equals
the specification-side per-index description, for any k-means
satisfying its contract. -/
theorem assign_clusters_matches_spec (kf : ℕ → List (List ℚ) → List ℕ)
    (hkf : KContract kf) (sim : List (List ℚ)) (k : ℕ) :
    assign_clusters_with_dynamic_threshold kf sim k = assignClustersSpec kf sim k :=
  assign_eq_spec kf hkf sim k

theorem kfZero_contract : KContract kfZero := by
  intro k data h1 _
  constructor
  · simp [kfZero]
  · intro l hl
    simp only [kfZero, List.mem_map] at hl
    obtain ⟨-, -, hl2⟩ := hl
    omega

/-- Witness for C4 at concrete inputs. -/
theorem assign_clusters_matches_spec_witness :
    KContract kfZero ∧
    assign_clusters_with_dynamic_threshold kfZero
        [[0, 0, 0, 0], [1, 1, 1, 1], [2, 2, 2, 2], [3, 3, 3, 3]] 3 =
      assignClustersSpec kfZero
        [[0, 0, 0, 0], [1, 1, 1, 1], [2, 2, 2, 2], [3, 3, 3, 3]] 3 :=
  ⟨kfZero_contract,
   assign_clusters_matches_spec kfZero kfZero_contract
     [[0, 0, 0, 0], [1, 1, 1, 1], [2, 2, 2, 2], [3, 3, 3, 3]] 3⟩

/-- C3 counterexample: with `num_clusters = 1` and a similarity matrix
whose lower-quartile threshold splits off exactly one client, the
splitting branch calls k-means with `n_clusters = 0`, which raises in
sklearn; the function does not return labels at all, contradicting the
claim for every `numClusters`. -/
theorem assign_clusters_error_one_cluster :
    assign_clusters_with_dynamic_threshold kfZero
      [[0, 0, 0, 0], [1, 1, 1, 1], [2, 2, 2, 2], [3, 3, 3, 3]] 1 = .error () := by
  norm_num [assign_clusters_with_dynamic_threshold, percentile25, sortQ, insertQ,
    rowMean, listMean, kmeansCall, List.range_succ]

/-- C3 amended: for every k-means collaborator satisfying its contract,
whenever `assign_clusters_with_dynamic_threshold` returns labels (it can
instead raise, e.g. for `numClusters = 1` on a splitting input), it
returns one label per client and every returned label lies in
`[0, numClusters)`. -/
theorem assign_clusters_labels_in_range (kf : ℕ → List (List ℚ) → List ℕ)
    (hkf : KContract kf) (sim : List (List ℚ)) (k : ℕ) (labels : List ℤ)
    (h : assign_clusters_with_dynamic_threshold kf sim k = .ok labels) :
    labels.length = sim.length ∧ ∀ l ∈ labels, 0 ≤ l ∧ l < (k : ℤ) :=
  spec_labels_bound kf hkf sim k labels (by rw [← assign_eq_spec kf hkf]; exact h)

/-- Witness for the C3 amended theorem at concrete inputs. -/
theorem assign_clusters_labels_in_range_witness :
    KContract kfZero ∧
    assign_clusters_with_dynamic_threshold kfZero
      [[0, 0, 0, 0], [1, 1, 1, 1], [2, 2, 2, 2], [3, 3, 3, 3]] 3 = .ok [0, 1, 1, 1] ∧
    (([0, 1, 1, 1] : List ℤ).length =
      ([[0, 0, 0, 0], [1, 1, 1, 1], [2, 2, 2, 2], [3, 3, 3, 3]] :
        List (List ℚ)).length ∧
      ∀ l ∈ ([0, 1, 1, 1] : List ℤ), 0 ≤ l ∧ l < (3 : ℤ)) := by
  have hok : assign_clusters_with_dynamic_threshold kfZero
      [[0, 0, 0, 0], [1, 1, 1, 1], [2, 2, 2, 2], [3, 3, 3, 3]] 3 = .ok [0, 1, 1, 1] := by
    norm_num [assign_clusters_with_dynamic_threshold, percentile25, sortQ, insertQ,
      rowMean, listMean, kmeansCall, kfZero, List.range_succ, List.indexOf_cons,
      List.replicate, List.set]
  exact ⟨kfZero_contract, hok,
    assign_clusters_labels_in_range kfZero kfZero_contract _ 3 [0, 1, 1, 1] hok⟩

theorem insertLe_length {α : Type} (le : α → α → Bool) (x : α) (l : List α) :
    (insertLe le x l).length = l.length + 1 := by
  induction l with
  | nil => rfl
  | cons y ys ih =>
    simp only [insertLe]
    by_cases h : le x y
    · rw [if_pos h]; rfl
    · rw [if_neg h]
      simp [ih]

theorem isortLe_length {α : Type} (le : α → α → Bool) (l : List α) :
    (isortLe le l).length = l.length := by
  induction l with
  | nil => rfl
  | cons x xs ih => simp [isortLe, insertLe_length, ih]

theorem sortIds_ne_nil (ids : List String) (h : ids ≠ []) : sortIds ids ≠ [] := by
  intro hc
  apply h
  unfold sortIds at hc
  by_cases hall : ids.all (fun s => (pyIntOfString s).isSome)
  · rw [if_pos hall] at hc
    have := isortLe_length
      (fun a b => decide (((pyIntOfString a).getD 0) ≤ ((pyIntOfString b).getD 0))) ids
    rw [hc] at this
    exact List.length_eq_zero.mp this.symm
  · rw [if_neg hall] at hc
    have := isortLe_length (fun a b => decide (a ≤ b)) ids
    rw [hc] at this
    exact List.length_eq_zero.mp this.symm

theorem save_ok_inv (st : StratState) (cids : List String)
    (labels : Option (List ℤ)) (r : ℕ) (h5 : H5Store) (txt : List String)
    (stX : StratState) (h5a : H5Store) (txta : List String)
    (h : save_cluster_assignments st cids labels r h5 txt = .ok (stX, h5a, txta)) :
    stX.cluster_labels = st.cluster_labels ∧
    stX.cluster_models = st.cluster_models ∧
    stX.dynamic_grouping = st.dynamic_grouping ∧
    stX.clustering_frequency = st.clustering_frequency ∧
    stX.num_clusters = st.num_clusters ∧
    stX.model_type = st.model_type ∧
    (is_clustering_round r st.clustering_frequency = false →
      stX.client_cluster_mapping = st.client_cluster_mapping) := by
  simp only [save_cluster_assignments] at h
  by_cases h0 : ¬st.dynamic_grouping = true ∨ labels = none
  · rw [if_pos h0] at h
    injection h with h2
    simp only [Prod.mk.injEq] at h2
    rw [← h2.1]
    exact ⟨rfl, rfl, rfl, rfl, rfl, rfl, fun _ => rfl⟩
  · rw [if_neg h0] at h
    have main : ∀ (st1 : StratState),
        (if is_clustering_round r st.clustering_frequency then
          (if (sortIds cids).length ≤ (labels.getD []).length then
            Except.ok { st with client_cluster_mapping := some (mkDict
              (((List.range (sortIds cids).length).zip (sortIds cids)).map
                (fun p => (PKey.kstr p.2, (labels.getD []).getD p.1 0)))) }
          else Except.error ())
        else Except.ok st) = .ok st1 →
        st1.cluster_labels = st.cluster_labels ∧
        st1.cluster_models = st.cluster_models ∧
        st1.dynamic_grouping = st.dynamic_grouping ∧
        st1.clustering_frequency = st.clustering_frequency ∧
        st1.num_clusters = st.num_clusters ∧
        st1.model_type = st.model_type ∧
        (is_clustering_round r st.clustering_frequency = false →
          st1.client_cluster_mapping = st.client_cluster_mapping) := by
      intro st1 h1
      by_cases hcl : is_clustering_round r st.clustering_frequency
      · rw [if_pos hcl] at h1
        by_cases hlen : (sortIds cids).length ≤ (labels.getD []).length
        · rw [if_pos hlen] at h1
          injection h1 with h2
          rw [← h2]
          exact ⟨rfl, rfl, rfl, rfl, rfl, rfl, fun hc => by rw [hcl] at hc; cases hc⟩
        · rw [if_neg hlen] at h1; cases h1
      · rw [if_neg hcl] at h1
        injection h1 with h2
        rw [← h2]
        exact ⟨rfl, rfl, rfl, rfl, rfl, rfl, fun _ => rfl⟩
    cases hst1 : (if is_clustering_round r st.clustering_frequency then
          (if (sortIds cids).length ≤ (labels.getD []).length then
            Except.ok { st with client_cluster_mapping := some (mkDict
              (((List.range (sortIds cids).length).zip (sortIds cids)).map
                (fun p => (PKey.kstr p.2, (labels.getD []).getD p.1 0)))) }
          else Except.error ())
        else Except.ok st) with
    | error e => simp only [hst1] at h; cases h
    | ok st1 =>
      simp only [hst1] at h
      have hfields := main st1 hst1
      cases hmap : st1.client_cluster_mapping with
      | none => simp only [hmap] at h; cases h
      | some m =>
        simp only [hmap] at h
        cases hmo : mapO (fun cid => alookup m (PKey.kstr cid)) (sortIds cids) with
        | none => simp only [hmo] at h; cases h
        | some labsOut =>
          simp only [hmo] at h
          cases hh5 : (match alookup h5 r with
            | none => (Except.ok (h5 ++ [(r, (sortIds cids, labsOut))]) : Except Unit H5Store)
            | some old =>
              match h5Overwrite old.1 (sortIds cids), h5Overwrite old.2 labsOut with
              | .ok c2, .ok l2 =>
                .ok (h5.map (fun (e : ℕ × (List String × List ℤ)) =>
                  if e.1 = r then (r, (c2, l2)) else e))
              | _, _ => .error ()) with
          | error e => simp only [hh5] at h; cases h
          | ok h5b =>
            simp only [hh5] at h
            injection h with h2
            simp only [Prod.mk.injEq] at h2
            rw [← h2.1]
            refine ⟨hfields.1, hfields.2.1, hfields.2.2.1, hfields.2.2.2.1,
              hfields.2.2.2.2.1, hfields.2.2.2.2.2.1, ?_⟩
            intro hc
            rw [hmap] at hfields ⊢
            exact hfields.2.2.2.2.2.2 hc

theorem save_err_int_keys (st : StratState) (cids : List String) (ls : List ℤ)
    (r : ℕ) (h5 : H5Store) (txt : List String) (m : List (PKey × ℤ))
    (hdyn : st.dynamic_grouping = true)
    (hcl : is_clustering_round r st.clustering_frequency = false)
    (hm : st.client_cluster_mapping = some m)
    (hkeys : ∀ k ∈ m.map Prod.fst, ∃ i, k = PKey.kint i)
    (hcids : cids ≠ []) :
    save_cluster_assignments st cids (some ls) r h5 txt = .error () := by
  simp only [save_cluster_assignments, hdyn, hcl]
  rw [if_neg (by simp)]
  simp only [Bool.false_eq_true, if_false, hm]
  have hmo : mapO (fun cid => alookup m (PKey.kstr cid)) (sortIds cids) = none := by
    apply mapO_eq_none_of_all_none
    · exact sortIds_ne_nil cids hcids
    · intro cid _
      exact alookup_kstr_of_all_kint m hkeys cid
  rw [hmo]

theorem ap_labels_clustering_inv (simFn : List Tensor → List (List ℚ))
    (kf : ℕ → List (List ℚ) → List ℕ) (st : StratState) (pl : List Params)
    (r : ℕ) (cl : List ℤ) (stA : StratState)
    (hcl : is_clustering_round r st.clustering_frequency = true)
    (h : ap_labels simFn kf st pl r = .ok (cl, stA)) :
    assign_clusters_with_dynamic_threshold kf (simFn (pl.map (fun ps => ps.flatten)))
      st.num_clusters = .ok cl ∧
    stA.cluster_labels = some cl := by
  simp only [ap_labels, hcl, if_true] at h
  cases ha : assign_clusters_with_dynamic_threshold kf
      (simFn (pl.map (fun ps => ps.flatten))) st.num_clusters with
  | error e => simp only [ha] at h; cases h
  | ok ls2 =>
    simp only [ha] at h
    by_cases hlen : pl.length ≤ ls2.length
    · rw [if_pos hlen] at h
      injection h with h2
      simp only [Prod.mk.injEq] at h2
      obtain ⟨hcl2, hstA⟩ := h2
      subst hcl2
      refine ⟨rfl, ?_⟩
      rw [← hstA]
    · rw [if_neg hlen] at h; cases h

theorem ap_labels_nonclustering_inv (simFn : List Tensor → List (List ℚ))
    (kf : ℕ → List (List ℚ) → List ℕ) (st : StratState) (pl : List Params)
    (r : ℕ) (cl : List ℤ) (stA : StratState)
    (hcl : is_clustering_round r st.clustering_frequency = false)
    (h : ap_labels simFn kf st pl r = .ok (cl, stA)) :
    ∃ cl0 mapping2, st.cluster_labels = some cl0 ∧ pl.length ≤ cl0.length ∧
      stA.client_cluster_mapping = some mapping2 ∧
      stA.cluster_labels = st.cluster_labels ∧
      cl = (List.range pl.length).map
        (fun i => (alookup mapping2 (PKey.kint (Int.ofNat i))).getD (cl0.getD i 0)) ∧
      ((∃ m0, st.client_cluster_mapping = some m0 ∧ ¬(m0.length < pl.length) ∧
          mapping2 = m0) ∨
        mapping2 = mkDict ((List.range pl.length).map
          (fun i => (PKey.kint (Int.ofNat i), cl0.getD i 0)))) := by
  simp only [ap_labels, hcl] at h
  rw [if_neg (by simp)] at h
  cases hcl0 : st.cluster_labels with
  | none => simp only [hcl0] at h; cases h
  | some cl0 =>
    simp only [hcl0] at h
    by_cases hlen : pl.length ≤ cl0.length
    · rw [if_pos hlen] at h
      injection h with h2
      simp only [Prod.mk.injEq] at h2
      obtain ⟨hcl2, hstA⟩ := h2
      by_cases hreb : (match st.client_cluster_mapping with
          | none => true
          | some m => decide (m.length < pl.length)) = true
      · refine ⟨cl0, mkDict ((List.range pl.length).map
          (fun i => (PKey.kint (Int.ofNat i), cl0.getD i 0))), rfl, hlen, ?_, ?_, ?_, Or.inr rfl⟩
        · rw [← hstA]
          simp only [hreb, if_true]
        · rw [← hstA]
        · rw [← hcl2]
          simp only [hreb, if_true]
      · cases hm0 : st.client_cluster_mapping with
        | none => rw [hm0] at hreb; simp at hreb
        | some m0 =>
          rw [hm0] at hreb
          simp only [decide_eq_true_eq] at hreb
          refine ⟨cl0, m0, rfl, hlen, ?_, ?_, ?_, Or.inl ⟨m0, rfl, hreb, rfl⟩⟩
          · rw [← hstA]
            simp only [hm0]
            rw [if_neg (by simp [hreb])]
            simp
          · rw [← hstA]
          · rw [← hcl2]
            simp only [hm0]
            rw [if_neg (by simp [hreb])]
            simp
    · rw [if_neg hlen] at h; cases h

theorem ap_aggregate_inv (st1 : StratState) (pl : List Params) (cl : List ℤ)
    (stB : StratState) (fin : Params) (lab : Option (List ℤ))
    (h : ap_aggregate st1 pl cl = .ok (stB, fin, lab)) :
    stB.client_cluster_mapping = st1.client_cluster_mapping ∧
    stB.cluster_labels = st1.cluster_labels ∧
    stB.dynamic_grouping = st1.dynamic_grouping ∧
    stB.clustering_frequency = st1.clustering_frequency ∧
    stB.num_clusters = st1.num_clusters ∧
    stB.model_type = st1.model_type ∧
    lab = some cl := by
  simp only [ap_aggregate] at h
  cases hM : mapE meanParamsList
      ((List.range st1.num_clusters).filterMap (fun c =>
        if cluster_member_params pl cl (c : ℤ) = [] then none
        else some (cluster_member_params pl cl (c : ℤ)))) with
  | error e => simp only [hM] at h; cases h
  | ok aggp =>
    simp only [hM] at h
    cases hF : (if aggp ≠ [] then meanParamsList aggp
        else .ok (zerosLike (pl.headD []))) with
    | error e => simp only [hF] at h; cases h
    | ok fin2 =>
      simp only [hF] at h
      injection h with h2
      simp only [Prod.mk.injEq] at h2
      obtain ⟨hst, hfin, hlab⟩ := h2
      rw [← hst]
      exact ⟨rfl, rfl, rfl, rfl, rfl, rfl, hlab.symm⟩

/-- C5: re-clustering happens exactly when `server_round == 1` or
`server_round mod clustering_frequency == 0`: on a clustering round a
successful `aggregate_fit` stores labels freshly computed by the
clusterer on the round's submitted parameters, while on a non-clustering
round it leaves `client_cluster_mapping` unchanged and derives the
round's labels from the previously stored ones, so a client present in
the client-cluster map both before and after a non-clustering round has
an unchanged cluster label. -/
theorem reclustering_cadence_and_stability
    (simFn : List Tensor → List (List ℚ)) (kf : ℕ → List (List ℚ) → List ℕ)
    (st : StratState) (server_round : ℕ) (results : List FitResult)
    (h5 : H5Store) (txt : List String) (st3 : StratState) (h5a : H5Store)
    (txta : List String) (out : Option Params)
    (hdyn : st.dynamic_grouping = true)
    (hok : aggregate_fit simFn kf st server_round results h5 txt =
      .ok (st3, h5a, txta, out)) :
    (is_clustering_round server_round st.clustering_frequency = true →
      results ≠ [] →
      ∃ ls, assign_clusters_with_dynamic_threshold kf
          (simFn ((results.map (fun r => r.parameters)).map (fun ps => ps.flatten)))
          st.num_clusters = .ok ls ∧
        st3.cluster_labels = some ls) ∧
    (is_clustering_round server_round st.clustering_frequency = false →
      st3.client_cluster_mapping = st.client_cluster_mapping ∧
      (results ≠ [] → ∃ cl0 m0, st.cluster_labels = some cl0 ∧
        st.client_cluster_mapping = some m0 ∧
        st3.cluster_labels = some ((List.range results.length).map
          (fun i => (alookup m0 (PKey.kint (Int.ofNat i))).getD (cl0.getD i 0)))) ∧
      (∀ m m2 k v v2, st.client_cluster_mapping = some m →
        st3.client_cluster_mapping = some m2 →
        alookup m k = some v → alookup m2 k = some v2 → v = v2)) := by
  by_cases hres : results = []
  · subst hres
    simp only [aggregate_fit, if_pos rfl] at hok
    injection hok with h2
    simp only [Prod.mk.injEq] at h2
    obtain ⟨hst, -⟩ := h2
    subst hst
    refine ⟨fun _ hne => absurd rfl hne, fun _ => ⟨rfl, fun hne => absurd rfl hne, ?_⟩⟩
    intro m m2 k v v2 hm hm2 hv hv2
    rw [hm] at hm2
    injection hm2 with hm3
    rw [hm3] at hv
    rw [hv] at hv2
    injection hv2
  · simp only [aggregate_fit, if_neg hres, hdyn, if_true] at hok
    simp only [aggregate_parameters, hdyn, if_true] at hok
    cases hL : ap_labels simFn kf st (results.map (fun r => r.parameters)) server_round with
    | error e => simp only [hL] at hok; cases hok
    | ok pr =>
      simp only [hL] at hok
      obtain ⟨cl, stA⟩ := pr
      cases hB : ap_aggregate stA (results.map (fun r => r.parameters)) cl with
      | error e => simp only [hB] at hok; cases hok
      | ok trip =>
        simp only [hB] at hok
        obtain ⟨stB, fin, lab⟩ := trip
        cases hS : save_cluster_assignments { stB with cluster_labels := lab }
            (results.map (fun r => r.cid)) lab server_round h5 txt with
        | error e => simp only [hS] at hok; cases hok
        | ok trip2 =>
          simp only [hS] at hok
          obtain ⟨stS, h5S, txtS⟩ := trip2
          injection hok with h2
          simp only [Prod.mk.injEq] at h2
          obtain ⟨hst3, -, -, -⟩ := h2
          subst hst3
          have hBinv := ap_aggregate_inv stA _ cl stB fin lab hB
          have hlab : lab = some cl := hBinv.2.2.2.2.2.2
          subst hlab
          have hSinv := save_ok_inv _ _ _ _ _ _ _ _ _ hS
          have hfreqB : stB.clustering_frequency = st.clustering_frequency :=
            (hBinv.2.2.2.1).trans (ap_labels_ok_fields _ _ _ _ _ _ _ hL).2.2.1
          constructor
          · intro hcl _
            obtain ⟨hassign, hlabels⟩ :=
              ap_labels_clustering_inv simFn kf st _ server_round cl stA hcl hL
            refine ⟨cl, hassign, ?_⟩
            have h1 : stS.cluster_labels =
                ({ stB with cluster_labels := some cl } : StratState).cluster_labels :=
              hSinv.1
            rw [h1]
          · intro hcl
            obtain ⟨cl0, mapping2, hcl0, hlen, hmapA, hlabA, hclval, hcase⟩ :=
              ap_labels_nonclustering_inv simFn kf st _ server_round cl stA hcl hL
            have hmapB : stB.client_cluster_mapping = some mapping2 :=
              hBinv.1.trans hmapA
            have hSnc : stS.client_cluster_mapping =
                ({ stB with cluster_labels := some cl } : StratState).client_cluster_mapping := by
              apply hSinv.2.2.2.2.2.2
              show is_clustering_round server_round
                ({ stB with cluster_labels := some cl } : StratState).clustering_frequency = false
              simpa [hfreqB] using hcl
            have hm0 : ∃ m0, st.client_cluster_mapping = some m0 ∧ mapping2 = m0 := by
              rcases hcase with ⟨m0, hm0, -, hmm⟩ | hreb
              · exact ⟨m0, hm0, hmm⟩
              · exfalso
                have hkeys : ∀ k ∈ mapping2.map Prod.fst, ∃ i, k = PKey.kint i := by
                  intro k hk
                  rw [hreb] at hk
                  have := mkDict_keys_sub _ k hk
                  simp only [List.map_map, List.mem_map] at this
                  obtain ⟨i, -, hi⟩ := this
                  exact ⟨Int.ofNat i, hi.symm⟩
                have herr := save_err_int_keys { stB with cluster_labels := some cl }
                  (results.map (fun r => r.cid)) cl server_round h5 txt mapping2
                  (by show stB.dynamic_grouping = true
                      exact (hBinv.2.2.1).trans
                        ((ap_labels_ok_fields _ _ _ _ _ _ _ hL).2.1.trans hdyn))
                  (by show is_clustering_round server_round stB.clustering_frequency = false
                      rw [hfreqB]; exact hcl)
                  (by show stB.client_cluster_mapping = some mapping2; exact hmapB)
                  hkeys
                  (by simpa using hres)
                rw [herr] at hS
                cases hS
            obtain ⟨m0, hm0st, hmm⟩ := hm0
            have hmapS : stS.client_cluster_mapping = st.client_cluster_mapping := by
              rw [hSnc]
              show stB.client_cluster_mapping = st.client_cluster_mapping
              rw [hmapB, hmm, hm0st]
            refine ⟨hmapS, ?_, ?_⟩
            · intro _
              refine ⟨cl0, m0, hcl0, hm0st, ?_⟩
              have h1 : stS.cluster_labels =
                  ({ stB with cluster_labels := some cl } : StratState).cluster_labels :=
                hSinv.1
              rw [h1]
              show some cl = _
              rw [hclval, hmm]
              simp [List.length_map]
            · intro m m2 k v v2 hm hm2 hv hv2
              rw [hmapS, hm] at hm2
              injection hm2 with hm3
              rw [hm3] at hv
              rw [hv] at hv2
              injection hv2

/-- Witness for C5 at concrete inputs: a clustering round (round 1)
stores the freshly computed labels, and a non-clustering round on empty
results leaves the mapping unchanged. -/
theorem reclustering_cadence_and_stability_witness :
    (stOn.dynamic_grouping = true ∧
      is_clustering_round 1 stOn.clustering_frequency = true ∧
      aggregate_fit simConst kfZero stOn 1
        [⟨"0", [[1, 1]], 1⟩, ⟨"1", [[3, 3]], 1⟩, ⟨"2", [[5, 5]], 1⟩] [] [] =
        .ok ({ stOn with
                 cluster_labels := some [0, 0, 0]
                 client_cluster_mapping := some
                   [(PKey.kstr "0", 0), (PKey.kstr "1", 0), (PKey.kstr "2", 0)]
                 cluster_models := [(0, some [[3, 3]])] },
          [(1, (["0", "1", "2"], [0, 0, 0]))],
          ["Server Round 1:", "Client ID: 0, Cluster: 0", "Client ID: 1, Cluster: 0",
           "Client ID: 2, Cluster: 0", ""], some [[3, 3]]) ∧
      ∃ ls, assign_clusters_with_dynamic_threshold kfZero
          (simConst (List.map (fun ps => List.flatten ps)
            (List.map (fun r => r.parameters)
              ([⟨"0", [[1, 1]], 1⟩, ⟨"1", [[3, 3]], 1⟩, ⟨"2", [[5, 5]], 1⟩] :
                List FitResult))))
          stOn.num_clusters = .ok ls ∧
        ({ stOn with
             cluster_labels := some [0, 0, 0]
             client_cluster_mapping := some
               [(PKey.kstr "0", 0), (PKey.kstr "1", 0), (PKey.kstr "2", 0)]
             cluster_models := [(0, some [[3, 3]])] } : StratState).cluster_labels =
          some ls) ∧
    (is_clustering_round 3 ({ stOn with clustering_frequency := 2 } :
        StratState).clustering_frequency = false ∧
      aggregate_fit simConst kfZero { stOn with clustering_frequency := 2 } 3 [] [] [] =
        .ok ({ stOn with clustering_frequency := 2 }, [], [], none) ∧
      ({ stOn with clustering_frequency := 2 } : StratState).client_cluster_mapping =
        ({ stOn with clustering_frequency := 2 } : StratState).client_cluster_mapping) := by
  have hdyn : stOn.dynamic_grouping = true := rfl
  have hok1 : aggregate_fit simConst kfZero stOn 1
      [⟨"0", [[1, 1]], 1⟩, ⟨"1", [[3, 3]], 1⟩, ⟨"2", [[5, 5]], 1⟩] [] [] =
      .ok ({ stOn with
               cluster_labels := some [0, 0, 0]
               client_cluster_mapping := some
                 [(PKey.kstr "0", 0), (PKey.kstr "1", 0), (PKey.kstr "2", 0)]
               cluster_models := [(0, some [[3, 3]])] },
        [(1, (["0", "1", "2"], [0, 0, 0]))],
        ["Server Round 1:", "Client ID: 0, Cluster: 0", "Client ID: 1, Cluster: 0",
         "Client ID: 2, Cluster: 0", ""], some [[3, 3]]) := by
    have hagg : aggregate_parameters simConst kfZero stOn [[[1, 1]], [[3, 3]], [[5, 5]]] 1 =
        .ok ({ stOn with
               cluster_labels := some [0, 0, 0]
               client_cluster_mapping := some
                 [(PKey.kint 0, 0), (PKey.kint 1, 0), (PKey.kint 2, 0)]
               cluster_models := [(0, some [[3, 3]])] }, [[3, 3]], some [0, 0, 0]) := by
      simp [aggregate_parameters, ap_labels, ap_aggregate, stOn, stOff, simConst, kfZero,
        is_clustering_round, assign_clusters_with_dynamic_threshold, percentile25, sortQ,
        insertQ, rowMean, listMean, kmeansCall, mkDict, dictInsert, hasKey, alookup,
        cluster_member_params, meanParamsList, mapE, meanTensors, pyZip, pyZipGo, headsTails,
        List.range_succ, zerosLike]
      norm_num [Except.map, List.filterMap, List.flatMap, List.getD, mapE, meanTensors,
        pyZip, pyZipGo, headsTails, listMean, meanParamsList, zerosLike, List.range_succ]
    simp only [aggregate_fit]
    rw [if_neg (by simp)]
    have hpl : ([⟨"0", [[1, 1]], 1⟩, ⟨"1", [[3, 3]], 1⟩, ⟨"2", [[5, 5]], 1⟩] :
        List FitResult).map (fun r => r.parameters) = [[[1, 1]], [[3, 3]], [[5, 5]]] := rfl
    rw [hdyn, if_pos rfl, hpl, hagg]
    simp only []
    decide
  have hok3 : aggregate_fit simConst kfZero { stOn with clustering_frequency := 2 } 3 [] [] [] =
      .ok ({ stOn with clustering_frequency := 2 }, [], [], none) := rfl
  have h1 := reclustering_cadence_and_stability simConst kfZero stOn 1 _ [] [] _ _ _ _ hdyn hok1
  have h3 := reclustering_cadence_and_stability simConst kfZero
    { stOn with clustering_frequency := 2 } 3 [] [] [] _ _ _ _ rfl hok3
  refine ⟨⟨hdyn, by decide, hok1, h1.1 (by decide) (by simp)⟩,
          ⟨by decide, hok3, (h3.2 (by decide)).1⟩⟩

theorem mapO_length {α β : Type} (f : α → Option β) :
    ∀ (xs : List α) (ys : List β), mapO f xs = some ys → ys.length = xs.length := by
  intro xs
  induction xs with
  | nil =>
    intro ys h
    simp only [mapO] at h
    cases h
    rfl
  | cons x xs ih =>
    intro ys h
    simp only [mapO] at h
    cases hfx : f x with
    | none => rw [hfx] at h; cases h
    | some y =>
      rw [hfx] at h
      cases hrest : mapO f xs with
      | none => rw [hrest] at h; cases h
      | some ys2 =>
        rw [hrest] at h
        cases h
        simp [ih ys2 hrest]

theorem alookup_none_forall {κ β : Type} [DecidableEq κ] (m : List (κ × β)) (k : κ)
    (h : alookup m k = none) : ∀ p ∈ m, p.1 ≠ k := by
  induction m with
  | nil => intro p hp; simp at hp
  | cons q rest ih =>
    simp only [alookup] at h
    by_cases hq : q.1 = k
    · rw [if_pos hq] at h; cases h
    · rw [if_neg hq] at h
      intro p hp
      rcases List.mem_cons.mp hp with hpq | hpm
      · rw [hpq]; exact hq
      · exact ih h p hpm

theorem alookup_append_single {κ β : Type} [DecidableEq κ] (m : List (κ × β)) (k : κ)
    (x : β) (h : alookup m k = none) : alookup (m ++ [(k, x)]) k = some x := by
  induction m with
  | nil => simp [alookup]
  | cons q rest ih =>
    simp only [alookup] at h ⊢
    by_cases hq : q.1 = k
    · rw [if_pos hq] at h; cases h
    · rw [if_neg hq] at h ⊢
      exact ih h

theorem alookup_replace (m : H5Store) (r : ℕ) (x : List String × List ℤ)
    (old : List String × List ℤ) (h : alookup m r = some old) :
    alookup (m.map (fun e => if e.1 = r then (r, x) else e)) r = some x := by
  induction m with
  | nil => simp [alookup] at h
  | cons q rest ih =>
    simp only [alookup] at h
    by_cases hq : q.1 = r
    · simp only [List.map_cons, if_pos hq]
      simp [alookup]
    · rw [if_neg hq] at h
      simp only [List.map_cons, if_neg hq]
      simp only [alookup]
      rw [if_neg hq]
      exact ih h

theorem filter_key_map_replace (m : H5Store) (r : ℕ) (x : List String × List ℤ) :
    ((m.map (fun e => if e.1 = r then (r, x) else e)).filter (fun e => e.1 = r)).length =
      (m.filter (fun e => e.1 = r)).length := by
  induction m with
  | nil => rfl
  | cons q rest ih =>
    simp only [List.map_cons]
    by_cases hq : q.1 = r
    · rw [if_pos hq]
      rw [List.filter_cons_of_pos (by simp), List.filter_cons_of_pos (by simp [hq])]
      simp [ih]
    · rw [if_neg hq]
      rw [List.filter_cons_of_neg (by simp [hq]), List.filter_cons_of_neg (by simp [hq])]
      exact ih

theorem filter_key_append_none (m : H5Store) (r : ℕ) (x : List String × List ℤ)
    (h : alookup m r = none) :
    ((m ++ [(r, x)]).filter (fun e => e.1 = r)).length = 1 := by
  have hall := alookup_none_forall m r h
  rw [List.filter_append]
  have h1 : m.filter (fun e => decide (e.1 = r)) = [] := by
    rw [List.filter_eq_nil_iff]
    intro p hp
    simpa using hall p hp
  rw [h1]
  simp

theorem save_ok_h5_txt_inv (st : StratState) (cids : List String)
    (labels : Option (List ℤ)) (ls : List ℤ)
    (r : ℕ) (h5 : H5Store) (txt : List String)
    (stX : StratState) (h5x : H5Store) (txtx : List String)
    (hdyn : st.dynamic_grouping = true) (hlb : labels = some ls)
    (h : save_cluster_assignments st cids labels r h5 txt = .ok (stX, h5x, txtx)) :
    ∃ m labs, stX.client_cluster_mapping = some m ∧
      mapO (fun cid => alookup m (PKey.kstr cid)) (sortIds cids) = some labs ∧
      labs.length = (sortIds cids).length ∧
      ((alookup h5 r = none ∧ h5x = h5 ++ [(r, (sortIds cids, labs))]) ∨
        (∃ old c2 l2, alookup h5 r = some old ∧
          h5Overwrite old.1 (sortIds cids) = .ok c2 ∧
          h5Overwrite old.2 labs = .ok l2 ∧
          h5x = h5.map (fun e => if e.1 = r then (r, (c2, l2)) else e))) ∧
      txtx = txt ++ [("Server Round " ++ toString r ++ ":")]
        ++ ((sortIds cids).zip labs).map
             (fun p => "Client ID: " ++ p.1 ++ ", Cluster: " ++ toString p.2)
        ++ [""] := by
  simp only [save_cluster_assignments] at h
  rw [if_neg (show ¬(¬st.dynamic_grouping = true ∨ labels = none) by
    simp [hdyn, hlb])] at h
  cases hst1 : (if is_clustering_round r st.clustering_frequency = true then
        (if (sortIds cids).length ≤ (labels.getD []).length then
          Except.ok { st with client_cluster_mapping := some (mkDict
            (((List.range (sortIds cids).length).zip (sortIds cids)).map
              (fun p => (PKey.kstr p.2, (labels.getD []).getD p.1 0)))) }
        else Except.error ())
      else Except.ok st) with
  | error e => simp only [hst1] at h; cases h
  | ok st1 =>
    simp only [hst1] at h
    cases hmap : st1.client_cluster_mapping with
    | none => simp only [hmap] at h; cases h
    | some m =>
      simp only [hmap] at h
      cases hmo : mapO (fun cid => alookup m (PKey.kstr cid)) (sortIds cids) with
      | none => simp only [hmo] at h; cases h
      | some labsOut =>
        simp only [hmo] at h
        cases hh5 : (match alookup h5 r with
          | none => (Except.ok (h5 ++ [(r, (sortIds cids, labsOut))]) : Except Unit H5Store)
          | some old =>
            match h5Overwrite old.1 (sortIds cids), h5Overwrite old.2 labsOut with
            | .ok c2, .ok l2 =>
              .ok (h5.map (fun (e : ℕ × (List String × List ℤ)) =>
                if e.1 = r then (r, (c2, l2)) else e))
            | _, _ => .error ()) with
        | error e => simp only [hh5] at h; cases h
        | ok h5b =>
          simp only [hh5] at h
          injection h with h2
          simp only [Prod.mk.injEq] at h2
          obtain ⟨hstX, hh5x, htxt⟩ := h2
          refine ⟨m, labsOut, by rw [← hstX]; exact hmap,
            hmo, mapO_length _ _ _ hmo, ?_, htxt.symm⟩
          cases hl : alookup h5 r with
          | none =>
            left
            refine ⟨rfl, ?_⟩
            rw [hl] at hh5
            injection hh5 with hh5b
            rw [← hh5x, ← hh5b]
          | some old =>
            right
            rw [hl] at hh5
            cases hc2 : h5Overwrite old.1 (sortIds cids) with
            | error e => simp only [hc2] at hh5; cases hh5
            | ok c2 =>
              cases hl2 : h5Overwrite old.2 labsOut with
              | error e => simp only [hc2, hl2] at hh5; cases hh5
              | ok l2 =>
                simp only [hc2, hl2] at hh5
                injection hh5 with hh5b
                exact ⟨old, c2, l2, rfl, hc2, hl2, by rw [← hh5x, ← hh5b]⟩

/-- C6 counterexample: calling `_save_cluster_assignments` twice for
round 1 with different labels leaves the flat text log with TWO
`Server Round 1:` blocks — the text log is opened in append mode, so the
per-round write is not idempotent, contrary to the claim. -/
theorem save_cluster_assignments_txt_duplicates :
    save_cluster_assignments stW ["1", "0"] (some [0, 1]) 1 [] [] =
      .ok (stW2, [(1, (["0", "1"], [0, 1]))],
        ["Server Round 1:", "Client ID: 0, Cluster: 0", "Client ID: 1, Cluster: 1", ""]) ∧
    save_cluster_assignments stW2 ["1", "0"] (some [1, 0]) 1
        [(1, (["0", "1"], [0, 1]))]
        ["Server Round 1:", "Client ID: 0, Cluster: 0", "Client ID: 1, Cluster: 1", ""] =
      .ok ({ stW with
               client_cluster_mapping := some [(PKey.kstr "0", 1), (PKey.kstr "1", 0)] },
        [(1, (["0", "1"], [1, 0]))],
        ["Server Round 1:", "Client ID: 0, Cluster: 0", "Client ID: 1, Cluster: 1", "",
         "Server Round 1:", "Client ID: 0, Cluster: 1", "Client ID: 1, Cluster: 0", ""]) ∧
    ((["Server Round 1:", "Client ID: 0, Cluster: 0", "Client ID: 1, Cluster: 1", "",
       "Server Round 1:", "Client ID: 0, Cluster: 1", "Client ID: 1, Cluster: 0", ""] :
        List String).filter (fun l => l = "Server Round 1:")).length = 2 := by
  refine ⟨by decide, by decide, by decide⟩

/-- C6 amended: per round key, the structured keyed-by-round store is
idempotent — writing the same round twice (with the same client count)
leaves exactly one entry for that round, holding the second write's
data — but the flat text log is append-only: each call appends a fresh
round block, so after two writes the log contains (at least) two
`Server Round` blocks for the round. -/
theorem save_twice_same_round
    (st st1 st2 : StratState) (cids1 cids2 : List String) (ls1 ls2 : List ℤ)
    (r : ℕ) (h5 h5a h5b : H5Store) (txt txt1 txt2 : List String)
    (hdyn : st.dynamic_grouping = true)
    (hfresh : alookup h5 r = none)
    (hlen : (sortIds cids2).length = (sortIds cids1).length)
    (h1 : save_cluster_assignments st cids1 (some ls1) r h5 txt = .ok (st1, h5a, txt1))
    (h2 : save_cluster_assignments st1 cids2 (some ls2) r h5a txt1 = .ok (st2, h5b, txt2)) :
    (h5b.filter (fun e => e.1 = r)).length = 1 ∧
    (∃ labs2 m2, alookup h5b r = some (sortIds cids2, labs2) ∧
      st2.client_cluster_mapping = some m2 ∧
      mapO (fun cid => alookup m2 (PKey.kstr cid)) (sortIds cids2) = some labs2) ∧
    2 ≤ (txt2.filter (fun l => l = ("Server Round " ++ toString r ++ ":"))).length := by
  obtain ⟨m1, labs1, hm1, hmo1, hlab1, hcase1, htxt1⟩ :=
    save_ok_h5_txt_inv st cids1 (some ls1) ls1 r h5 txt st1 h5a txt1 hdyn rfl h1
  have hdyn1 : st1.dynamic_grouping = true :=
    (save_ok_inv st cids1 (some ls1) r h5 txt st1 h5a txt1 h1).2.2.1.trans hdyn
  obtain ⟨m2, labs2, hm2, hmo2, hlab2, hcase2, htxt2⟩ :=
    save_ok_h5_txt_inv st1 cids2 (some ls2) ls2 r h5a txt1 st2 h5b txt2 hdyn1 rfl h2
  have hh5a : h5a = h5 ++ [(r, (sortIds cids1, labs1))] := by
    rcases hcase1 with ⟨-, he⟩ | ⟨old, c2, l2, hsome, -, -, -⟩
    · exact he
    · rw [hfresh] at hsome; cases hsome
  have hlook : alookup h5a r = some (sortIds cids1, labs1) := by
    rw [hh5a]
    exact alookup_append_single h5 r _ hfresh
  rcases hcase2 with ⟨hnone, -⟩ | ⟨old, c2, l2, hsome, hc2, hl2, hh5b⟩
  · rw [hlook] at hnone; cases hnone
  · rw [hlook] at hsome
    injection hsome with hold
    subst hold
    have hc2v : c2 = sortIds cids2 := by
      unfold h5Overwrite at hc2
      rw [if_pos hlen] at hc2
      injection hc2 with h3
      exact h3.symm
    have hl2v : l2 = labs2 := by
      unfold h5Overwrite at hl2
      rw [if_pos (by rw [hlab2, hlab1, hlen])] at hl2
      injection hl2 with h3
      exact h3.symm
    rw [hc2v, hl2v] at hh5b
    refine ⟨?_, ⟨labs2, m2, ?_, hm2, hmo2⟩, ?_⟩
    · rw [hh5b, filter_key_map_replace, hh5a, filter_key_append_none h5 r _ hfresh]
    · rw [hh5b]
      exact alookup_replace h5a r _ _ hlook
    · rw [htxt2, htxt1]
      rw [List.filter_append, List.filter_append, List.filter_append, List.filter_append,
        List.filter_append, List.filter_append]
      simp only [List.length_append]
      have hhdr : (([("Server Round " ++ toString r ++ ":")] : List String).filter
          (fun l => l = ("Server Round " ++ toString r ++ ":"))).length = 1 := by
        simp
      omega

/-- Witness for the C6 amended theorem at concrete inputs. -/
theorem save_twice_same_round_witness :
    stW.dynamic_grouping = true ∧
    (alookup ([] : H5Store) 1 = none) ∧
    (sortIds ["1", "0"]).length = (sortIds ["1", "0"]).length ∧
    (([(1, (["0", "1"], [1, 0]))] : H5Store).filter (fun e => e.1 = 1)).length = 1 ∧
    (∃ labs2 m2, alookup ([(1, (["0", "1"], [1, 0]))] : H5Store) 1 =
        some (sortIds ["1", "0"], labs2) ∧
      ({ stW with
          client_cluster_mapping := some [(PKey.kstr "0", 1), (PKey.kstr "1", 0)] } :
            StratState).client_cluster_mapping = some m2 ∧
      mapO (fun cid => alookup m2 (PKey.kstr cid)) (sortIds ["1", "0"]) = some labs2) ∧
    2 ≤ ((["Server Round 1:", "Client ID: 0, Cluster: 0", "Client ID: 1, Cluster: 1", "",
       "Server Round 1:", "Client ID: 0, Cluster: 1", "Client ID: 1, Cluster: 0", ""] :
        List String).filter (fun l => l = ("Server Round " ++ toString 1 ++ ":"))).length := by
  have h := save_twice_same_round stW stW2
    { stW with
      client_cluster_mapping := some [(PKey.kstr "0", 1), (PKey.kstr "1", 0)] }
    ["1", "0"] ["1", "0"] [0, 1] [1, 0] 1 [] [(1, (["0", "1"], [0, 1]))]
    [(1, (["0", "1"], [1, 0]))] []
    ["Server Round 1:", "Client ID: 0, Cluster: 0", "Client ID: 1, Cluster: 1", ""]
    ["Server Round 1:", "Client ID: 0, Cluster: 0", "Client ID: 1, Cluster: 1", "",
     "Server Round 1:", "Client ID: 0, Cluster: 1", "Client ID: 1, Cluster: 0", ""]
    rfl (by decide) (by decide) (by decide) (by decide)
  exact ⟨rfl, by decide, by decide, h.1, h.2.1, h.2.2⟩

theorem select_go_entries (r : ℕ) (ls : List (List Char)) :
    ∀ (found : Bool) (best : Option (ℕ × ℚ)),
    select_go r found best ls =
      Except.map (fun es => es.foldl stepBest best) (sel_entries r found ls) := by
  induction ls with
  | nil => intro found best; rfl
  | cons line rest ih =>
    intro found best
    rw [select_go, sel_entries]
    split_ifs with h1 h2 h3
    · exact ih true best
    · cases hg : matchGroup line with
      | none =>
        simp only [hg]
        exact ih found best
      | some g =>
        cases hs : searchMetricNum line with
        | none =>
          simp only [hg, hs]
          exact ih found best
        | some ds =>
          cases hf : pyFloatOfDigits ds with
          | none =>
            simp only [hg, hs, hf]
            rfl
          | some v =>
            simp only [hg, hs, hf]
            have hL := ih found (stepBest best (g, v))
            cases he : sel_entries r found rest with
            | error e =>
              rw [he] at hL
              exact hL
            | ok es =>
              rw [he] at hL
              exact hL
    · rfl
    · exact ih found best

theorem foldl_stepBest_mem (es : List (ℕ × ℚ)) : ∀ (b : ℕ × ℚ),
    ∃ p, es.foldl stepBest (some b) = some p ∧ (p = b ∨ p ∈ es) ∧
      b.2 ≤ p.2 ∧ ∀ e ∈ es, e.2 ≤ p.2 := by
  induction es with
  | nil =>
    intro b
    exact ⟨b, rfl, Or.inl rfl, le_refl _, by simp⟩
  | cons e t ih =>
    intro b
    rw [List.foldl_cons]
    by_cases h : e.2 > b.2
    · obtain ⟨p, hp, hmem, hb, hall⟩ := ih e
      have hstep : stepBest (some b) e = some e := by
        rw [stepBest]
        simp [h]
      refine ⟨p, by rw [hstep]; exact hp, ?_, le_of_lt (lt_of_lt_of_le h hb), ?_⟩
      · rcases hmem with h2 | h2
        · exact Or.inr (h2 ▸ List.mem_cons_self e t)
        · exact Or.inr (List.mem_cons_of_mem e h2)
      · intro x hx
        rcases List.mem_cons.mp hx with h2 | h2
        · exact h2 ▸ hb
        · exact hall x h2
    · obtain ⟨p, hp, hmem, hb, hall⟩ := ih b
      have hstep : stepBest (some b) e = some b := by
        rw [stepBest]
        simp [h]
      refine ⟨p, by rw [hstep]; exact hp, ?_, hb, ?_⟩
      · rcases hmem with h2 | h2
        · exact Or.inl h2
        · exact Or.inr (List.mem_cons_of_mem e h2)
      · intro x hx
        rcases List.mem_cons.mp hx with h2 | h2
        · exact h2 ▸ le_trans (not_lt.mp h) hb
        · exact hall x h2

/-- C7: `_select_best_model` is a max-scan over the `(group, metric)`
entries its line scan extracts (`sel_entries`): it propagates a float
parse failure, raises when no entry is extracted, and otherwise returns
`group - 1` and the metric value of an extracted entry whose metric
value is maximal among all extracted entries.  (The claim's further
assertion that it raises whenever the requested round's block is absent
is refuted separately: the round check is a substring test.) -/
theorem select_best_model_characterization (r : ℕ) (lines : List String) :
    (∀ e, sel_entries r false (lines.map String.toList) = .error e →
      select_best_model r lines = .error e) ∧
    (sel_entries r false (lines.map String.toList) = .ok [] →
      select_best_model r lines = .error ()) ∧
    (∀ es, sel_entries r false (lines.map String.toList) = .ok es → es ≠ [] →
      ∃ (g : ℕ) (v : ℚ), select_best_model r lines = .ok ((g : ℤ) - 1, v) ∧
        (g, v) ∈ es ∧ ∀ e ∈ es, e.2 ≤ v) := by
  refine ⟨?_, ?_, ?_⟩
  · intro e he
    rw [select_best_model, select_go_entries, he]
    rfl
  · intro he
    rw [select_best_model, select_go_entries, he]
    rfl
  · intro es he hne
    rw [select_best_model, select_go_entries, he]
    cases es with
    | nil => exact absurd rfl hne
    | cons e0 t =>
      obtain ⟨p, hp, hmem, hb, hall⟩ := foldl_stepBest_mem t e0
      obtain ⟨g, v⟩ := p
      have hfold : (e0 :: t).foldl stepBest none = some (g, v) := by
        rw [List.foldl_cons]
        exact hp
      refine ⟨g, v, ?_, ?_, ?_⟩
      · simp only [Except.map, hfold]
      · rcases hmem with h2 | h2
        · exact h2 ▸ List.mem_cons_self e0 t
        · exact List.mem_cons_of_mem e0 h2
      · intro x hx
        rcases List.mem_cons.mp hx with h2 | h2
        · exact h2 ▸ hb
        · exact hall x h2

/-- Witness for C7 on the spec's own example block: the extracted
entries are `Group-1 ↦ 0.80` and `Group-2 ↦ 0.91`, and the selection
returns an entry of maximal metric value. -/
theorem select_best_model_characterization_witness :
    sel_entries 2 false
        (["Round 2", "Group-1: Accuracy: 0.80", "Group-2: Accuracy: 0.91"].map
          String.toList) = .ok [(1, 80/100), (2, 91/100)] ∧
    (∃ (g : ℕ) (v : ℚ), select_best_model 2
        ["Round 2", "Group-1: Accuracy: 0.80", "Group-2: Accuracy: 0.91"] =
          .ok ((g : ℤ) - 1, v) ∧
      (g, v) ∈ [(1, (80/100 : ℚ)), (2, 91/100)] ∧
      ∀ e ∈ [(1, (80/100 : ℚ)), (2, 91/100)], e.2 ≤ v) := by
  have hse : sel_entries 2 false
      (["Round 2", "Group-1: Accuracy: 0.80", "Group-2: Accuracy: 0.91"].map
        String.toList) = .ok [(1, 80/100), (2, 91/100)] := by
    simp +decide [sel_entries, containsSub, dropPre, pyStrip, isPySpace,
      matchGroup, searchMetricNum, pyFloatOfDigits, digitsToNat]
    norm_num
  exact ⟨hse, (select_best_model_characterization 2
    ["Round 2", "Group-1: Accuracy: 0.80", "Group-2: Accuracy: 0.91"]).2.2
    [(1, 80/100), (2, 91/100)] hse (by simp)⟩

/-- C7 counterexample: the round check `f"Round {server_round}" in line`
is a substring test, so with the requested round 1's block absent and
only a round 10 block in the log, `_select_best_model` matches the
`Round 10` header, parses round 10's group line and returns `(0, 0.5)`
instead of raising the no-metrics error the claim demands. -/
theorem select_best_model_substring_round :
    select_best_model 1 ["Round 10", "Group-1: Accuracy: 0.5"] = .ok (0, 1/2) ∧
    ("Round 1" : String) ∉ ["Round 10", "Group-1: Accuracy: 0.5"] := by
  constructor
  · simp +decide [select_best_model, select_go, containsSub, dropPre, pyStrip,
      isPySpace, matchGroup, searchMetricNum, pyFloatOfDigits, digitsToNat]
    norm_num
  · decide

/-- The real-valued score `d / sqrt q` that `ltScore` compares exactly. -/
noncomputable def scoreR (p : ℚ × ℚ) : ℝ :=
  ((p.1 : ℚ) : ℝ) / Real.sqrt ((p.2 : ℚ) : ℝ)

theorem cosSimR_eq_scoreR (bl z : List ℚ) :
    cosSimR bl z =
      scoreR (dotQ bl z, dotQ z z) / Real.sqrt ((dotQ bl bl : ℚ) : ℝ) := by
  unfold cosSimR scoreR
  rw [div_div, mul_comm]

theorem sq_lt_sq_iff_nonneg (x y : ℝ) (hx : 0 ≤ x) (hy : 0 ≤ y) :
    x ^ 2 < y ^ 2 ↔ x < y := by
  constructor
  · intro h
    by_contra hc
    push_neg at hc
    nlinarith
  · intro h
    nlinarith

theorem ltScore_iff (a b : ℚ × ℚ) (ha : 0 < a.2) (hb : 0 < b.2) :
    ltScore a b = true ↔ scoreR a < scoreR b := by
  obtain ⟨d1, q1⟩ := a
  obtain ⟨d2, q2⟩ := b
  simp only at ha hb
  have hq1 : (0 : ℝ) < (q1 : ℝ) := by exact_mod_cast ha
  have hq2 : (0 : ℝ) < (q2 : ℝ) := by exact_mod_cast hb
  have hsa : (0 : ℝ) < Real.sqrt (q1 : ℝ) := Real.sqrt_pos.mpr hq1
  have hsb : (0 : ℝ) < Real.sqrt (q2 : ℝ) := Real.sqrt_pos.mpr hq2
  have hsa2 : Real.sqrt (q1 : ℝ) ^ 2 = (q1 : ℝ) := Real.sq_sqrt hq1.le
  have hsb2 : Real.sqrt (q2 : ℝ) ^ 2 = (q2 : ℝ) := Real.sq_sqrt hq2.le
  unfold ltScore scoreR
  simp only
  split_ifs with h1 h2 h3
  · simp only [true_iff]
    calc ((d1 : ℚ) : ℝ) / Real.sqrt (q1 : ℝ)
        < 0 := div_neg_of_neg_of_pos (by exact_mod_cast h1.1) hsa
      _ ≤ ((d2 : ℚ) : ℝ) / Real.sqrt (q2 : ℝ) :=
          div_nonneg (by exact_mod_cast h1.2) hsb.le
  · simp only [false_iff, not_lt]
    calc ((d2 : ℚ) : ℝ) / Real.sqrt (q2 : ℝ)
        ≤ 0 := le_of_lt (div_neg_of_neg_of_pos (by exact_mod_cast h2.2) hsb)
      _ ≤ ((d1 : ℚ) : ℝ) / Real.sqrt (q1 : ℝ) :=
          div_nonneg (by exact_mod_cast h2.1) hsa.le
  · have hd1 : (0 : ℝ) ≤ ((d1 : ℚ) : ℝ) := by exact_mod_cast h3
    have hd2 : (0 : ℝ) ≤ ((d2 : ℚ) : ℝ) := by
      rcases not_and_or.mp h2 with h | h
      · exact absurd h3 h
      · exact_mod_cast not_lt.mp h
    rw [decide_eq_true_eq, div_lt_div_iff hsa hsb]
    have e1 : (((d1 : ℚ) : ℝ) * Real.sqrt (q2 : ℝ)) ^ 2 =
        ((d1 : ℚ) : ℝ) ^ 2 * (q2 : ℝ) := by
      rw [mul_pow, hsb2]
    have e2 : (((d2 : ℚ) : ℝ) * Real.sqrt (q1 : ℝ)) ^ 2 =
        ((d2 : ℚ) : ℝ) ^ 2 * (q1 : ℝ) := by
      rw [mul_pow, hsa2]
    constructor
    · intro h
      have h' : ((d1 : ℚ) : ℝ) ^ 2 * (q2 : ℝ) < ((d2 : ℚ) : ℝ) ^ 2 * (q1 : ℝ) := by
        exact_mod_cast h
      rw [← e1, ← e2] at h'
      exact (sq_lt_sq_iff_nonneg _ _ (mul_nonneg hd1 hsb.le) (mul_nonneg hd2 hsa.le)).mp h'
    · intro h
      have h' := (sq_lt_sq_iff_nonneg _ _ (mul_nonneg hd1 hsb.le)
        (mul_nonneg hd2 hsa.le)).mpr h
      rw [e1, e2] at h'
      exact_mod_cast h'
  · have hd1 : ((d1 : ℚ) : ℝ) < 0 := by exact_mod_cast not_le.mp h3
    have hd2 : ((d2 : ℚ) : ℝ) < 0 := by
      rcases not_and_or.mp h1 with h | h
      · exact absurd (not_le.mp h3) h
      · exact_mod_cast not_le.mp h
    rw [decide_eq_true_eq, div_lt_div_iff hsa hsb]
    have e1 : ((-((d2 : ℚ) : ℝ)) * Real.sqrt (q1 : ℝ)) ^ 2 =
        ((d2 : ℚ) : ℝ) ^ 2 * (q1 : ℝ) := by
      rw [mul_pow, neg_sq, hsa2]
    have e2 : ((-((d1 : ℚ) : ℝ)) * Real.sqrt (q2 : ℝ)) ^ 2 =
        ((d1 : ℚ) : ℝ) ^ 2 * (q2 : ℝ) := by
      rw [mul_pow, neg_sq, hsb2]
    constructor
    · intro h
      have h' : ((d2 : ℚ) : ℝ) ^ 2 * (q1 : ℝ) < ((d1 : ℚ) : ℝ) ^ 2 * (q2 : ℝ) := by
        exact_mod_cast h
      rw [← e1, ← e2] at h'
      have h2' := (sq_lt_sq_iff_nonneg _ _
        (mul_nonneg (neg_nonneg.mpr hd2.le) hsa.le)
        (mul_nonneg (neg_nonneg.mpr hd1.le) hsb.le)).mp h'
      rw [neg_mul, neg_mul] at h2'
      linarith
    · intro h
      have h2' : -(((d2 : ℚ) : ℝ)) * Real.sqrt (q1 : ℝ) <
          -(((d1 : ℚ) : ℝ)) * Real.sqrt (q2 : ℝ) := by
        rw [neg_mul, neg_mul]
        linarith
      have h' := (sq_lt_sq_iff_nonneg _ _
        (mul_nonneg (neg_nonneg.mpr hd2.le) hsa.le)
        (mul_nonneg (neg_nonneg.mpr hd1.le) hsb.le)).mpr h2'
      rw [e1, e2] at h'
      exact_mod_cast h'

theorem foldl_ltScore_min (xs : List (String × (ℚ × ℚ))) :
    ∀ (x0 : String × (ℚ × ℚ)), (∀ s ∈ x0 :: xs, 0 < s.2.2) →
    (xs.foldl (fun best y => if ltScore y.2 best.2 then y else best) x0) ∈ x0 :: xs ∧
    ∀ s ∈ x0 :: xs,
      scoreR (xs.foldl (fun best y => if ltScore y.2 best.2 then y else best) x0).2 ≤
        scoreR s.2 := by
  induction xs with
  | nil =>
    intro x0 hpos
    refine ⟨List.mem_cons_self _ _, ?_⟩
    intro s hs
    rcases List.mem_cons.mp hs with h | h
    · rw [h]
      exact le_refl _
    · cases h
  | cons y t ih =>
    intro x0 hpos
    rw [List.foldl_cons]
    have hx0 : 0 < x0.2.2 := hpos x0 (List.mem_cons_self _ _)
    have hy : 0 < y.2.2 := hpos y (List.mem_cons_of_mem _ (List.mem_cons_self _ _))
    by_cases hc : ltScore y.2 x0.2 = true
    · rw [if_pos hc]
      have hlt : scoreR y.2 < scoreR x0.2 := (ltScore_iff y.2 x0.2 hy hx0).mp hc
      obtain ⟨hm, hbnd⟩ := ih y (by
        intro s hs
        rcases List.mem_cons.mp hs with h | h
        · rw [h]
          exact hy
        · exact hpos s (List.mem_cons_of_mem _ (List.mem_cons_of_mem _ h)))
      refine ⟨List.mem_cons_of_mem _ hm, ?_⟩
      intro s hs
      rcases List.mem_cons.mp hs with h | h
      · rw [h]
        exact le_of_lt (lt_of_le_of_lt (hbnd y (List.mem_cons_self _ _)) hlt)
      · exact hbnd s h
    · rw [if_neg hc]
      have hle : scoreR x0.2 ≤ scoreR y.2 :=
        not_lt.mp (fun h => hc ((ltScore_iff y.2 x0.2 hy hx0).mpr h))
      obtain ⟨hm, hbnd⟩ := ih x0 (by
        intro s hs
        rcases List.mem_cons.mp hs with h | h
        · rw [h]
          exact hx0
        · exact hpos s (List.mem_cons_of_mem _ (List.mem_cons_of_mem _ h)))
      refine ⟨?_, ?_⟩
      · rcases List.mem_cons.mp hm with h | h
        · rw [h]
          exact List.mem_cons_self _ _
        · exact List.mem_cons_of_mem _ (List.mem_cons_of_mem _ h)
      · intro s hs
        rcases List.mem_cons.mp hs with h | h
        · rw [h]
          exact hbnd x0 (List.mem_cons_self _ _)
        · rcases List.mem_cons.mp h with h2 | h2
          · rw [h2]
            exact le_trans (hbnd x0 (List.mem_cons_self _ _)) hle
          · exact hbnd s (List.mem_cons_of_mem _ h2)

/-- C8: poison detection raises the unsupported-model-type error for
every model type other than `Image Classification`; under that type,
when it flags a client, the flagged client is one of the submitted
updates and its cosine similarity (between the update's last parameter
tensor and the best model's last parameter tensor) is minimal among all
submitted updates.  The positivity hypotheses say the compared last
tensors are nonzero, so the cosine scores are well defined. -/
theorem detect_poisoned_flags_min_cosine
    (best_params : Params) (local_updates : List (String × Params))
    (hb : 0 < dotQ (best_params.getLastD []) (best_params.getLastD []))
    (hz : ∀ u ∈ local_updates, 0 < dotQ (u.2.getLastD []) (u.2.getLastD [])) :
    (∀ mt, mt ≠ "Image Classification" →
      detect_potential_poisoned_client mt best_params local_updates = .error ()) ∧
    (∀ flagged,
      detect_potential_poisoned_client "Image Classification" best_params local_updates =
        .ok flagged →
      ∃ fp, (flagged, fp) ∈ local_updates ∧
        ∀ u ∈ local_updates,
          cosSimR (best_params.getLastD []) (fp.getLastD []) ≤
            cosSimR (best_params.getLastD []) (u.2.getLastD [])) := by
  constructor
  · intro mt hmt
    rw [detect_potential_poisoned_client, if_pos hmt]
  · intro flagged h
    rw [detect_potential_poisoned_client, if_neg (by simp)] at h
    cases local_updates with
    | nil => cases h
    | cons u0 us =>
      simp only [List.map_cons, argminScores] at h
      set g : String × Params → String × (ℚ × ℚ) := fun u =>
        (u.1, (dotQ (best_params.getLastD []) (u.2.getLastD []),
               dotQ (u.2.getLastD []) (u.2.getLastD []))) with hg
      have hpos : ∀ s ∈ g u0 :: us.map g, 0 < s.2.2 := by
        intro s hs
        have hs2 : s ∈ (u0 :: us).map g := by
          rw [List.map_cons]
          exact hs
        obtain ⟨u, hu, hgu⟩ := List.mem_map.mp hs2
        rw [← hgu]
        exact hz u hu
      obtain ⟨hm, hbnd⟩ := foldl_ltScore_min (us.map g) (g u0) hpos
      have hflag : flagged = ((us.map g).foldl
          (fun best y => if ltScore y.2 best.2 then y else best) (g u0)).1 := by
        injection h with h2
        exact h2.symm
      have hm2 : ((us.map g).foldl
          (fun best y => if ltScore y.2 best.2 then y else best) (g u0)) ∈
            (u0 :: us).map g := by
        rw [List.map_cons]
        exact hm
      obtain ⟨u, hu, hgu⟩ := List.mem_map.mp hm2
      refine ⟨u.2, ?_, ?_⟩
      · have hu1 : u.1 = flagged := by
          rw [hflag, ← hgu]
        rw [← hu1]
        exact hu
      · intro v hv
        have hbv : scoreR ((us.map g).foldl
            (fun best y => if ltScore y.2 best.2 then y else best) (g u0)).2 ≤
              scoreR (g v).2 := by
          apply hbnd
          rw [show g u0 :: us.map g = (u0 :: us).map g from (List.map_cons g u0 us).symm]
          exact List.mem_map_of_mem g hv
        rw [← hgu] at hbv
        rw [cosSimR_eq_scoreR, cosSimR_eq_scoreR]
        have hbb : (0 : ℝ) < Real.sqrt ((dotQ (best_params.getLastD [])
            (best_params.getLastD []) : ℚ) : ℝ) :=
          Real.sqrt_pos.mpr (by exact_mod_cast hb)
        apply (div_le_div_right hbb).mpr
        exact hbv

/-- Witness for C8 on the spec's own example: best-model last layer
`[1,0]`, candidates `A : [1,0]` and `B : [0,1]`; `B` is flagged and its
cosine similarity is minimal. -/
theorem detect_poisoned_flags_min_cosine_witness :
    0 < dotQ (([[(1 : ℚ), 0]] : Params).getLastD [])
        (([[(1 : ℚ), 0]] : Params).getLastD []) ∧
    (∀ u ∈ [("A", ([[(1 : ℚ), 0]] : Params)), ("B", ([[(0 : ℚ), 1]] : Params))],
      0 < dotQ (u.2.getLastD []) (u.2.getLastD [])) ∧
    detect_potential_poisoned_client "Image Classification" [[(1 : ℚ), 0]]
      [("A", [[(1 : ℚ), 0]]), ("B", [[(0 : ℚ), 1]])] = .ok "B" ∧
    (∃ fp, ("B", fp) ∈ [("A", ([[(1 : ℚ), 0]] : Params)), ("B", ([[(0 : ℚ), 1]] : Params))] ∧
      ∀ u ∈ [("A", ([[(1 : ℚ), 0]] : Params)), ("B", ([[(0 : ℚ), 1]] : Params))],
        cosSimR (([[(1 : ℚ), 0]] : Params).getLastD []) (fp.getLastD []) ≤
          cosSimR (([[(1 : ℚ), 0]] : Params).getLastD []) (u.2.getLastD [])) := by
  have hb : 0 < dotQ (([[(1 : ℚ), 0]] : Params).getLastD [])
      (([[(1 : ℚ), 0]] : Params).getLastD []) := by
    norm_num [dotQ, List.getLastD]
  have hz : ∀ u ∈ [("A", ([[(1 : ℚ), 0]] : Params)), ("B", ([[(0 : ℚ), 1]] : Params))],
      0 < dotQ (u.2.getLastD []) (u.2.getLastD []) := by
    intro u hu
    rcases List.mem_cons.mp hu with h | h
    · rw [h]
      norm_num [dotQ, List.getLastD]
    · rcases List.mem_cons.mp h with h2 | h2
      · rw [h2]
        norm_num [dotQ, List.getLastD]
      · cases h2
  have hok : detect_potential_poisoned_client "Image Classification" [[(1 : ℚ), 0]]
      [("A", [[(1 : ℚ), 0]]), ("B", [[(0 : ℚ), 1]])] = .ok "B" := by
    norm_num [detect_potential_poisoned_client, argminScores, ltScore, dotQ,
      List.getLastD]
  exact ⟨hb, hz, hok,
    (detect_poisoned_flags_min_cosine [[(1 : ℚ), 0]]
      [("A", [[(1 : ℚ), 0]]), ("B", [[(0 : ℚ), 1]])] hb hz).2 "B" hok⟩

end FML
